import Mathlib

/-!
Verification of the in-memory p2p message router (`memory_server.rs`).

The Rust server is embedded shallowly:
* `HashMap` / `HashSet` become association lists (`alLookup` / `alInsert` /
  `alRemove`) resp. lists with membership; no handler iterates over a map,
  so association-list order never influences behaviour.
* an `mpsc::Sender<Protocol>` becomes an opaque sink identifier (`SinkId`);
  a successful channel send is recorded as an element of an output list
  `(sink, message)`.
* fallible operations return an `Option NetErr` alongside the outputs; a
  Rust panic (`expect` / `assert!`) is the distinguished error
  `NetErr.panicked`, a failed unicast (`format_err!("No sender channel
  found")`) is `NetErr.noSenderChannel`.  An early `?`-return keeps the
  state mutations already performed, as in the Rust code.
-/

namespace MemServer

abbrev Address := String

abbrev AgentId := String

abbrev BucketId := String

abbrev RequestId := String

/-- Stand-in for `mpsc::Sender<Protocol>`: an opaque sink identifier. -/
abbrev SinkId := Nat

/-- Association-list lookup, first matching key wins (`HashMap::get`). -/
def alLookup {α : Type} [DecidableEq α] {β : Type} : List (α × β) → α → Option β
  | [], _ => none
  | (k, v) :: rest, key => if key = k then some v else alLookup rest key

/-- Association-list insert (`HashMap::insert`): replace the existing
entry in place, or append a new one. -/
def alInsert {α : Type} [DecidableEq α] {β : Type} : List (α × β) → α → β → List (α × β)
  | [], key, val => [(key, val)]
  | (k, v) :: rest, key, val =>
    if key = k then (key, val) :: rest else (k, v) :: alInsert rest key val

/-- Association-list removal (`HashMap::remove`): drop the first entry
with the given key. -/
def alRemove {α : Type} [DecidableEq α] {β : Type} : List (α × β) → α → List (α × β)
  | [], _ => []
  | (k, v) :: rest, key => if key = k then rest else (k, v) :: alRemove rest key

/-- `cat_dna_agent`: hash connections by `dna::agent_id`. -/
def cat_dna_agent (dna_address : Address) (agent_id : AgentId) : BucketId :=
  dna_address ++ "::" ++ agent_id

/-- `meta_to_address`: "hash" a metadata identifier. -/
def meta_to_address (data_address : Address) (attrib : String) : Address :=
  data_address ++ "||" ++ attrib

/-- `AddressBook`: map of bucket_id -> addresses. -/
abbrev AddressBook := List (BucketId × List Address)

/-- `bookkeep_address_with_bucket`: append the address to an existing
list for the bucket, or create a fresh singleton list. -/
def bookkeep_address_with_bucket (book : AddressBook) (bucket_id : BucketId)
    (address : Address) : AddressBook :=
  match alLookup book bucket_id with
  | some vec_address => alInsert book bucket_id (vec_address ++ [address])
  | none => alInsert book bucket_id [address]

/-- `bookkeep_address`: add an address to a book under `dna::agent`. -/
def bookkeep_address (book : AddressBook) (dna_address : Address) (agent_id : AgentId)
    (address : Address) : AddressBook :=
  bookkeep_address_with_bucket book (cat_dna_agent dna_address agent_id) address

/-- `unbookkeep_address`: remove the first occurrence of an address from
a book; report whether it was present. -/
def unbookkeep_address (book : AddressBook) (dna_address : Address) (agent_id : AgentId)
    (address : Address) : AddressBook × Bool :=
  let bucket_id := cat_dna_agent dna_address agent_id
  match alLookup book bucket_id with
  | some vec_address =>
    (alInsert book bucket_id (vec_address.erase address), vec_address.contains address)
  | none => (book, false)

/-! ### Protocol message payloads

Field sets and orders follow the construction and field-access sites in
`memory_server.rs` (the struct declarations themselves live in the
`holochain_net_connection::json_protocol` collaborator crate). -/

/-- Payload of `SuccessResult` / `FailureResult`. -/
structure FailureResultData where
  request_id : RequestId
  dna_address : Address
  to_agent_id : AgentId
  error_info : String
  deriving DecidableEq

/-- Payload of `TrackDna`. -/
structure TrackDnaData where
  dna_address : Address
  agent_id : AgentId
  deriving DecidableEq

/-- Payload of `PeerConnected`. -/
structure PeerData where
  agent_id : AgentId
  deriving DecidableEq

/-- Payload of the four `HandleGet*List` reconciliation requests. -/
structure GetListData where
  request_id : RequestId
  dna_address : Address
  deriving DecidableEq

/-- Payload of `SendMessage` and friends. -/
structure MessageData where
  dna_address : Address
  to_agent_id : AgentId
  from_agent_id : AgentId
  msg_id : String
  data : String
  deriving DecidableEq

/-- Payload of `PublishEntry` / `HandleStoreEntry`. -/
structure EntryData where
  dna_address : Address
  provider_agent_id : AgentId
  entry_address : Address
  entry_content : String
  deriving DecidableEq

/-- Payload of `FetchEntry` / `HandleFetchEntry`. -/
structure FetchEntryData where
  requester_agent_id : AgentId
  request_id : RequestId
  dna_address : Address
  entry_address : Address
  deriving DecidableEq

/-- Payload of `HandleFetchEntryResult` / `FetchEntryResult`. -/
structure FetchEntryResultData where
  request_id : RequestId
  requester_agent_id : AgentId
  dna_address : Address
  provider_agent_id : AgentId
  entry_address : Address
  entry_content : String
  deriving DecidableEq

/-- Payload of `PublishMeta` / `HandleStoreMeta`. -/
structure DhtMetaData where
  dna_address : Address
  provider_agent_id : AgentId
  entry_address : Address
  content : String
  attrib : String
  deriving DecidableEq

/-- Payload of `FetchMeta` / `HandleFetchMeta`. -/
structure FetchMetaData where
  attrib : String
  requester_agent_id : AgentId
  request_id : RequestId
  dna_address : Address
  entry_address : Address
  deriving DecidableEq

/-- Payload of `HandleFetchMetaResult` / `FetchMetaResult`. -/
structure FetchMetaResultData where
  request_id : RequestId
  requester_agent_id : AgentId
  dna_address : Address
  provider_agent_id : AgentId
  entry_address : Address
  content : String
  attrib : String
  deriving DecidableEq

/-- Payload of `HandleGetPublishingEntryListResult` /
`HandleGetHoldingEntryListResult`. -/
structure EntryListData where
  request_id : RequestId
  dna_address : Address
  entry_address_list : List Address
  deriving DecidableEq

/-- Payload of `HandleGetPublishingMetaListResult` /
`HandleGetHoldingMetaListResult`: a list of `(data_address, attribute)`
pairs. -/
structure MetaListData where
  request_id : RequestId
  dna_address : Address
  meta_list : List (Address × String)
  deriving DecidableEq

/-- The `JsonProtocol` sum type: the variants `serve` dispatches on or
emits; `OtherVariant` stands for every remaining variant, all of which
fall into the `_ => ()` arm of the dispatcher. -/
inductive JsonProtocol where
  | SuccessResult (msg : FailureResultData)
  | FailureResult (msg : FailureResultData)
  | TrackDna (msg : TrackDnaData)
  | PeerConnected (msg : PeerData)
  | SendMessage (msg : MessageData)
  | HandleSendMessage (msg : MessageData)
  | HandleSendMessageResult (msg : MessageData)
  | SendMessageResult (msg : MessageData)
  | PublishEntry (msg : EntryData)
  | HandleStoreEntry (msg : EntryData)
  | FetchEntry (msg : FetchEntryData)
  | HandleFetchEntry (msg : FetchEntryData)
  | HandleFetchEntryResult (msg : FetchEntryResultData)
  | FetchEntryResult (msg : FetchEntryResultData)
  | PublishMeta (msg : DhtMetaData)
  | HandleStoreMeta (msg : DhtMetaData)
  | FetchMeta (msg : FetchMetaData)
  | HandleFetchMeta (msg : FetchMetaData)
  | HandleFetchMetaResult (msg : FetchMetaResultData)
  | FetchMetaResult (msg : FetchMetaResultData)
  | HandleGetPublishingEntryList (msg : GetListData)
  | HandleGetHoldingEntryList (msg : GetListData)
  | HandleGetPublishingMetaList (msg : GetListData)
  | HandleGetHoldingMetaList (msg : GetListData)
  | HandleGetPublishingEntryListResult (msg : EntryListData)
  | HandleGetHoldingEntryListResult (msg : EntryListData)
  | HandleGetPublishingMetaListResult (msg : MetaListData)
  | HandleGetHoldingMetaListResult (msg : MetaListData)
  | OtherVariant
  deriving DecidableEq

/-- The transport-level `Protocol` frame: either a JSON frame, for which
`JsonProtocol::try_from` succeeds, or any other frame, which `serve`
silently ignores. -/
inductive Protocol where
  | Json (msg : JsonProtocol)
  | NonJsonFrame
  deriving DecidableEq

/-- One delivered message: which sink received which frame. -/
abbrev Out := SinkId × Protocol

/-- Errors surfaced by server operations: a failed unicast
(`format_err!`) or a Rust panic (`expect` / `assert!`). -/
inductive NetErr where
  | noSenderChannel
  | panicked
  deriving DecidableEq

/-- The `InMemoryServer` state (field-for-field from the Rust struct). -/
structure InMemoryServer where
  senders : List (BucketId × SinkId)
  senders_by_dna : List (Address × List SinkId)
  name : String
  client_count : Nat
  published_entry_book : AddressBook
  stored_entry_book : AddressBook
  published_meta_book : AddressBook
  stored_meta_book : AddressBook
  trackdna_book : List BucketId
  request_book : List (RequestId × BucketId)
  request_count : Nat
  deriving DecidableEq

/-- Result of one public operation: the messages delivered to sinks (in
emission order), the state after the call, and its error, if any. -/
structure ServeResult where
  outs : List Out
  state : InMemoryServer
  err : Option NetErr
  deriving DecidableEq

/-- The request-id format `req_{n}`. -/
def reqId (n : Nat) : RequestId :=
  "req_" ++ Nat.repr n

/-- `priv_generate_request_id`: bump the counter, mint `req_{n}`. -/
def priv_generate_request_id (s : InMemoryServer) : InMemoryServer × RequestId :=
  let s2 := { s with request_count := s.request_count + 1 }
  (s2, reqId s2.request_count)

/-- `priv_create_request_with_bucket`: mint an id and register it. -/
def priv_create_request_with_bucket (s : InMemoryServer) (bucket_id : BucketId) :
    InMemoryServer × RequestId :=
  let g := priv_generate_request_id s
  ({ g.1 with request_book := alInsert g.1.request_book g.2 bucket_id }, g.2)

/-- `priv_create_request`. -/
def priv_create_request (s : InMemoryServer) (dna_address : Address) (agent_id : AgentId) :
    InMemoryServer × RequestId :=
  priv_create_request_with_bucket s (cat_dna_agent dna_address agent_id)

/-- `priv_drop_request`: remove the id, report whether it was known. -/
def priv_drop_request (s : InMemoryServer) (id : RequestId) : InMemoryServer × Bool :=
  ({ s with request_book := alRemove s.request_book id },
    (alLookup s.request_book id).isSome)

/-- `priv_check_request`: look the id up; if it is ours, remove it and
return its bucket. -/
def priv_check_request (s : InMemoryServer) (request_id : RequestId) :
    InMemoryServer × Option BucketId :=
  match alLookup s.request_book request_id with
  | none => (s, none)
  | some bucket_id => ((priv_drop_request s request_id).1, some bucket_id)

/-- `priv_send_one_with_bucket`: unicast through `senders`; error when no
channel is registered for the bucket. -/
def priv_send_one_with_bucket (s : InMemoryServer) (bucket_id : BucketId) (data : Protocol) :
    List Out × Option NetErr :=
  match alLookup s.senders bucket_id with
  | none => ([], some NetErr.noSenderChannel)
  | some sender => ([(sender, data)], none)

/-- `priv_send_one`: unicast to `dna_address::to_agent_id`. -/
def priv_send_one (s : InMemoryServer) (dna_address : Address) (to_agent_id : AgentId)
    (data : Protocol) : List Out × Option NetErr :=
  priv_send_one_with_bucket s (cat_dna_agent dna_address to_agent_id) data

/-- `priv_send_all`: multicast to every sink registered for the DNA, in
list (= registration) order.  An unknown DNA sends nothing. -/
def priv_send_all (s : InMemoryServer) (dna_address : Address) (data : Protocol) : List Out :=
  match alLookup s.senders_by_dna dna_address with
  | none => []
  | some arr => arr.map (fun sender => (sender, data))

/-- Which of the four reconciliation lists is being requested. -/
inductive ListRequestKind where
  | publishingEntry
  | holdingEntry
  | publishingMeta
  | holdingMeta
  deriving DecidableEq

/-- The message constructor each list request uses. -/
def listRequestMsg : ListRequestKind → GetListData → JsonProtocol
  | ListRequestKind.publishingEntry => JsonProtocol.HandleGetPublishingEntryList
  | ListRequestKind.holdingEntry => JsonProtocol.HandleGetHoldingEntryList
  | ListRequestKind.publishingMeta => JsonProtocol.HandleGetPublishingMetaList
  | ListRequestKind.holdingMeta => JsonProtocol.HandleGetHoldingMetaList

/-- One block of `priv_request_lists`: mint a request id and unicast the
list request; the Rust code `expect`s the send, so a failed send is a
panic. -/
def priv_request_one (s : InMemoryServer) (dna_address : Address) (agent_id : AgentId)
    (kind : ListRequestKind) : ServeResult :=
  let c := priv_create_request s dna_address agent_id
  let r := priv_send_one c.1 dna_address agent_id
    (Protocol.Json (listRequestMsg kind ⟨c.2, dna_address⟩))
  match r.2 with
  | some _ => ⟨r.1, c.1, some NetErr.panicked⟩
  | none => ⟨r.1, c.1, none⟩

/-- `priv_request_lists`: the reconciliation handshake - the four list
requests in source order. -/
def priv_request_lists (s : InMemoryServer) (dna_address : Address) (agent_id : AgentId) :
    ServeResult :=
  let a1 := priv_request_one s dna_address agent_id ListRequestKind.publishingEntry
  match a1.err with
  | some _ => a1
  | none =>
    let a2 := priv_request_one a1.state dna_address agent_id ListRequestKind.holdingEntry
    match a2.err with
    | some _ => ⟨a1.outs ++ a2.outs, a2.state, a2.err⟩
    | none =>
      let a3 := priv_request_one a2.state dna_address agent_id ListRequestKind.publishingMeta
      match a3.err with
      | some _ => ⟨a1.outs ++ a2.outs ++ a3.outs, a3.state, a3.err⟩
      | none =>
        let a4 := priv_request_one a3.state dna_address agent_id ListRequestKind.holdingMeta
        ⟨a1.outs ++ a2.outs ++ a3.outs ++ a4.outs, a4.state, a4.err⟩

/-- `InMemoryServer::new`. -/
def InMemoryServer.new (name : String) : InMemoryServer where
  senders := []
  senders_by_dna := []
  name := name
  client_count := 0
  published_entry_book := []
  stored_entry_book := []
  published_meta_book := []
  stored_meta_book := []
  trackdna_book := []
  request_book := []
  request_count := 0

/-- `clock_in`: one more connected client. -/
def clock_in (s : InMemoryServer) : InMemoryServer :=
  { s with client_count := s.client_count + 1 }

/-- `clock_out`: `assert!(client_count > 0)` (modelled as `none`),
decrement, and clear both routing tables on reaching zero. -/
def clock_out (s : InMemoryServer) : Option InMemoryServer :=
  if s.client_count = 0 then none
  else
    let s2 := { s with client_count := s.client_count - 1 }
    if s2.client_count = 0 then some { s2 with senders := [], senders_by_dna := [] }
    else some s2

/-- `register`: overwrite the bucket entry in `senders`, append the sink
to `senders_by_dna[dna]`.  Always returns `Ok(())`. -/
def register (s : InMemoryServer) (dna_address : Address) (agent_id : AgentId)
    (sender : SinkId) : InMemoryServer × Except NetErr Unit :=
  let s2 := { s with senders := alInsert s.senders (cat_dna_agent dna_address agent_id) sender }
  let arr2 :=
    match alLookup s2.senders_by_dna dna_address with
    | some arr => arr ++ [sender]
    | none => [sender]
  let s3 := { s2 with senders_by_dna := alInsert s2.senders_by_dna dna_address arr2 }
  (s3, Except.ok ())

/-- `priv_serve_SendMessage`: fabricate `HandleSendMessage` for the
receiving agent. -/
def priv_serve_SendMessage (s : InMemoryServer) (msg : MessageData) : ServeResult :=
  let sr := priv_send_one s msg.dna_address msg.to_agent_id
    (Protocol.Json (JsonProtocol.HandleSendMessage msg))
  ⟨sr.1, s, sr.2⟩

/-- `priv_serve_HandleSendMessageResult`: fabricate `SendMessageResult`
for the initial sender. -/
def priv_serve_HandleSendMessageResult (s : InMemoryServer) (msg : MessageData) : ServeResult :=
  let sr := priv_send_one s msg.dna_address msg.to_agent_id
    (Protocol.Json (JsonProtocol.SendMessageResult msg))
  ⟨sr.1, s, sr.2⟩

/-- `priv_serve_PublishDhtData`: book-keep the entry address, then fan
out `HandleStoreEntry` to every sink on the DNA. -/
def priv_serve_PublishDhtData (s : InMemoryServer) (msg : EntryData) : ServeResult :=
  let book2 :=
    bookkeep_address s.published_entry_book msg.dna_address msg.provider_agent_id
      msg.entry_address
  let s2 := { s with published_entry_book := book2 }
  ⟨priv_send_all s2 msg.dna_address (Protocol.Json (JsonProtocol.HandleStoreEntry msg)),
    s2, none⟩

/-- The fabricated `error_info` for a fetch with no peers. -/
def couldNotFindNodes : String :=
  "could not find nodes handling this dnaAddress"

/-- `priv_serve_FetchDhtData`: route to the first sink on the DNA;
otherwise fabricate a `FailureResult` back to the requester. -/
def priv_serve_FetchDhtData (s : InMemoryServer) (msg : FetchEntryData) : ServeResult :=
  match alLookup s.senders_by_dna msg.dna_address with
  | some (r :: _) =>
    ⟨[(r, Protocol.Json (JsonProtocol.HandleFetchEntry msg))], s, none⟩
  | some [] =>
    let sr := priv_send_one s msg.dna_address msg.requester_agent_id
      (Protocol.Json (JsonProtocol.FailureResult
        ⟨msg.request_id, msg.dna_address, msg.requester_agent_id, couldNotFindNodes⟩))
    ⟨sr.1, s, sr.2⟩
  | none =>
    let sr := priv_send_one s msg.dna_address msg.requester_agent_id
      (Protocol.Json (JsonProtocol.FailureResult
        ⟨msg.request_id, msg.dna_address, msg.requester_agent_id, couldNotFindNodes⟩))
    ⟨sr.1, s, sr.2⟩

/-- `priv_serve_HandleFetchDhtDataResult`: a reply to one of our own
requests becomes a publish; any other reply is relayed to its requester. -/
def priv_serve_HandleFetchDhtDataResult (s : InMemoryServer) (msg : FetchEntryResultData) :
    ServeResult :=
  let dr := priv_drop_request s msg.request_id
  if dr.2 then
    priv_serve_PublishDhtData dr.1
      ⟨msg.dna_address, msg.provider_agent_id, msg.entry_address, msg.entry_content⟩
  else
    let sr := priv_send_one dr.1 msg.dna_address msg.requester_agent_id
      (Protocol.Json (JsonProtocol.FetchEntryResult msg))
    ⟨sr.1, dr.1, sr.2⟩

/-- `priv_serve_PublishDhtMeta`: fan out `HandleStoreMeta`; note that no
book is written (the Rust code has the same asymmetry). -/
def priv_serve_PublishDhtMeta (s : InMemoryServer) (msg : DhtMetaData) : ServeResult :=
  ⟨priv_send_all s msg.dna_address (Protocol.Json (JsonProtocol.HandleStoreMeta msg)),
    s, none⟩

/-- `priv_serve_FetchDhtMeta`: like `priv_serve_FetchDhtData`, for
metadata. -/
def priv_serve_FetchDhtMeta (s : InMemoryServer) (msg : FetchMetaData) : ServeResult :=
  match alLookup s.senders_by_dna msg.dna_address with
  | some (r :: _) =>
    ⟨[(r, Protocol.Json (JsonProtocol.HandleFetchMeta msg))], s, none⟩
  | some [] =>
    let sr := priv_send_one s msg.dna_address msg.requester_agent_id
      (Protocol.Json (JsonProtocol.FailureResult
        ⟨msg.request_id, msg.dna_address, msg.requester_agent_id, couldNotFindNodes⟩))
    ⟨sr.1, s, sr.2⟩
  | none =>
    let sr := priv_send_one s msg.dna_address msg.requester_agent_id
      (Protocol.Json (JsonProtocol.FailureResult
        ⟨msg.request_id, msg.dna_address, msg.requester_agent_id, couldNotFindNodes⟩))
    ⟨sr.1, s, sr.2⟩

/-- `priv_serve_HandleFetchDhtMetaResult`. -/
def priv_serve_HandleFetchDhtMetaResult (s : InMemoryServer) (msg : FetchMetaResultData) :
    ServeResult :=
  let dr := priv_drop_request s msg.request_id
  if dr.2 then
    priv_serve_PublishDhtMeta dr.1
      ⟨msg.dna_address, msg.provider_agent_id, msg.entry_address, msg.content, msg.attrib⟩
  else
    let sr := priv_send_one dr.1 msg.dna_address msg.requester_agent_id
      (Protocol.Json (JsonProtocol.FetchMetaResult msg))
    ⟨sr.1, dr.1, sr.2⟩

/-- The `String::new()` requester id carried by internal fetches. -/
def emptyAgentId : AgentId :=
  ""

/-- Loop of `priv_serve_HandleGetPublishingDataListResult`: for every
entry address not in the snapshot of the already-published list, mint an
internal request and send `HandleFetchEntry` to the bucket. -/
def publishingListLoop (bucket_id : BucketId) (dna_address : Address)
    (known_published_list : List Address) :
    InMemoryServer → List Out → List Address → ServeResult
  | s, outs, [] => ⟨outs, s, none⟩
  | s, outs, entry_address :: rest =>
    if entry_address ∈ known_published_list then
      publishingListLoop bucket_id dna_address known_published_list s outs rest
    else
      let c := priv_create_request_with_bucket s bucket_id
      let sr := priv_send_one_with_bucket c.1 bucket_id
        (Protocol.Json (JsonProtocol.HandleFetchEntry
          ⟨emptyAgentId, c.2, dna_address, entry_address⟩))
      match sr.2 with
      | some e => ⟨outs ++ sr.1, c.1, some e⟩
      | none => publishingListLoop bucket_id dna_address known_published_list c.1
          (outs ++ sr.1) rest

/-- `priv_serve_HandleGetPublishingDataListResult`: consume the request
id (panic when it is not ours), then fetch every advertised entry that
the book does not already record. -/
def priv_serve_HandleGetPublishingDataListResult (s : InMemoryServer) (msg : EntryListData) :
    ServeResult :=
  let cr := priv_check_request s msg.request_id
  match cr.2 with
  | none => ⟨[], cr.1, some NetErr.panicked⟩
  | some bucket_id =>
    let known_published_list := (alLookup cr.1.published_entry_book bucket_id).getD []
    publishingListLoop bucket_id msg.dna_address known_published_list cr.1 []
      msg.entry_address_list

/-- Loop of `priv_serve_HandleGetHoldingDataListResult`: append every
address not in the snapshot of the stored list. -/
def holdingListLoop (bucket_id : BucketId) (known_stored_list : List Address) :
    AddressBook → List Address → AddressBook
  | book, [] => book
  | book, data_address :: rest =>
    if data_address ∈ known_stored_list then holdingListLoop bucket_id known_stored_list book rest
    else holdingListLoop bucket_id known_stored_list
      (bookkeep_address_with_bucket book bucket_id data_address) rest

/-- `priv_serve_HandleGetHoldingDataListResult`: consume the request id
(panic when it is not ours), then book-keep every advertised address the
snapshot does not already record.  No message is emitted. -/
def priv_serve_HandleGetHoldingDataListResult (s : InMemoryServer) (msg : EntryListData) :
    ServeResult :=
  let cr := priv_check_request s msg.request_id
  match cr.2 with
  | none => ⟨[], cr.1, some NetErr.panicked⟩
  | some bucket_id =>
    let known_stored_list := (alLookup cr.1.stored_entry_book bucket_id).getD []
    let book2 :=
      holdingListLoop bucket_id known_stored_list cr.1.stored_entry_book
        msg.entry_address_list
    ⟨[], { cr.1 with stored_entry_book := book2 }, none⟩

/-- Loop of `priv_serve_HandleGetPublishingMetaListResult`. -/
def publishingMetaListLoop (bucket_id : BucketId) (dna_address : Address)
    (known_published_list : List Address) :
    InMemoryServer → List Out → List (Address × String) → ServeResult
  | s, outs, [] => ⟨outs, s, none⟩
  | s, outs, (data_address, attrib) :: rest =>
    if data_address ∈ known_published_list then
      publishingMetaListLoop bucket_id dna_address known_published_list s outs rest
    else
      let c := priv_create_request_with_bucket s bucket_id
      let sr := priv_send_one_with_bucket c.1 bucket_id
        (Protocol.Json (JsonProtocol.HandleFetchMeta
          ⟨attrib, emptyAgentId, c.2, dna_address, data_address⟩))
      match sr.2 with
      | some e => ⟨outs ++ sr.1, c.1, some e⟩
      | none => publishingMetaListLoop bucket_id dna_address known_published_list c.1
          (outs ++ sr.1) rest

/-- `priv_serve_HandleGetPublishingMetaListResult`: the comparison is
against the (never written) `published_meta_book` of *data* addresses. -/
def priv_serve_HandleGetPublishingMetaListResult (s : InMemoryServer) (msg : MetaListData) :
    ServeResult :=
  let cr := priv_check_request s msg.request_id
  match cr.2 with
  | none => ⟨[], cr.1, some NetErr.panicked⟩
  | some bucket_id =>
    let known_published_list := (alLookup cr.1.published_meta_book bucket_id).getD []
    publishingMetaListLoop bucket_id msg.dna_address known_published_list cr.1 []
      msg.meta_list

/-- Loop of `priv_serve_HandleGetHoldingMetaListResult`: compare the
*data* address against the snapshot, store the *meta* address. -/
def holdingMetaListLoop (bucket_id : BucketId) (known_stored_list : List Address) :
    AddressBook → List (Address × String) → AddressBook
  | book, [] => book
  | book, (data_address, attrib) :: rest =>
    if data_address ∈ known_stored_list then
      holdingMetaListLoop bucket_id known_stored_list book rest
    else holdingMetaListLoop bucket_id known_stored_list
      (bookkeep_address_with_bucket book bucket_id (meta_to_address data_address attrib)) rest

/-- `priv_serve_HandleGetHoldingMetaListResult`. -/
def priv_serve_HandleGetHoldingMetaListResult (s : InMemoryServer) (msg : MetaListData) :
    ServeResult :=
  let cr := priv_check_request s msg.request_id
  match cr.2 with
  | none => ⟨[], cr.1, some NetErr.panicked⟩
  | some bucket_id =>
    let known_stored_list := (alLookup cr.1.stored_meta_book bucket_id).getD []
    let book2 :=
      holdingMetaListLoop bucket_id known_stored_list cr.1.stored_meta_book
        msg.meta_list
    ⟨[], { cr.1 with stored_meta_book := book2 }, none⟩

/-- `serve`: decode the frame (non-JSON frames are ignored) and dispatch
on the variant, exactly as the Rust `match`. -/
def serve (s : InMemoryServer) (data : Protocol) : ServeResult :=
  match data with
  | Protocol.NonJsonFrame => ⟨[], s, none⟩
  | Protocol.Json json_msg =>
    match json_msg with
    | JsonProtocol.SuccessResult msg =>
      let sr := priv_send_one s msg.dna_address msg.to_agent_id
        (Protocol.Json (JsonProtocol.SuccessResult msg))
      ⟨sr.1, s, sr.2⟩
    | JsonProtocol.FailureResult msg =>
      let cr := priv_check_request s msg.request_id
      match cr.2 with
      | some _ => ⟨[], (priv_drop_request cr.1 msg.request_id).1, none⟩
      | none =>
        let sr := priv_send_one cr.1 msg.dna_address msg.to_agent_id
          (Protocol.Json (JsonProtocol.FailureResult msg))
        ⟨sr.1, cr.1, sr.2⟩
    | JsonProtocol.TrackDna msg =>
      let bucket_id := cat_dna_agent msg.dna_address msg.agent_id
      if bucket_id ∈ s.trackdna_book then ⟨[], s, none⟩
      else
        let s2 := { s with trackdna_book := bucket_id :: s.trackdna_book }
        let outs := priv_send_all s2 msg.dna_address
          (Protocol.Json (JsonProtocol.PeerConnected ⟨msg.agent_id⟩))
        let r := priv_request_lists s2 msg.dna_address msg.agent_id
        ⟨outs ++ r.outs, r.state, r.err⟩
    | JsonProtocol.SendMessage msg => priv_serve_SendMessage s msg
    | JsonProtocol.HandleSendMessageResult msg => priv_serve_HandleSendMessageResult s msg
    | JsonProtocol.FetchEntry msg => priv_serve_FetchDhtData s msg
    | JsonProtocol.HandleFetchEntryResult msg => priv_serve_HandleFetchDhtDataResult s msg
    | JsonProtocol.PublishEntry msg => priv_serve_PublishDhtData s msg
    | JsonProtocol.FetchMeta msg => priv_serve_FetchDhtMeta s msg
    | JsonProtocol.HandleFetchMetaResult msg => priv_serve_HandleFetchDhtMetaResult s msg
    | JsonProtocol.PublishMeta msg => priv_serve_PublishDhtMeta s msg
    | JsonProtocol.HandleGetPublishingEntryListResult msg =>
      priv_serve_HandleGetPublishingDataListResult s msg
    | JsonProtocol.HandleGetHoldingEntryListResult msg =>
      priv_serve_HandleGetHoldingDataListResult s msg
    | JsonProtocol.HandleGetPublishingMetaListResult msg =>
      priv_serve_HandleGetPublishingMetaListResult s msg
    | JsonProtocol.HandleGetHoldingMetaListResult msg =>
      priv_serve_HandleGetHoldingMetaListResult s msg
    | _ => ⟨[], s, none⟩

/-- What a call to `serve` may NOT do to the state. -/
def OnlyBooksChanged (s s' : InMemoryServer) : Prop :=
  s'.senders = s.senders ∧ s'.senders_by_dna = s.senders_by_dna ∧ s'.name = s.name ∧
  s'.client_count = s.client_count ∧ s'.published_meta_book = s.published_meta_book ∧
  s.trackdna_book ⊆ s'.trackdna_book

/-- The four reconciliation requests delivered to the tracked agent, in
source order, when the server's request counter starts at `n`. -/
def reconciliation_requests (dna_address : Address) (_agent_id : AgentId) (sender : SinkId)
    (n : Nat) : List Out :=
  [(sender, Protocol.Json (JsonProtocol.HandleGetPublishingEntryList
      ⟨reqId (n + 1), dna_address⟩)),
   (sender, Protocol.Json (JsonProtocol.HandleGetHoldingEntryList
      ⟨reqId (n + 2), dna_address⟩)),
   (sender, Protocol.Json (JsonProtocol.HandleGetPublishingMetaList
      ⟨reqId (n + 3), dna_address⟩)),
   (sender, Protocol.Json (JsonProtocol.HandleGetHoldingMetaList
      ⟨reqId (n + 4), dna_address⟩))]

/-- State reached by a successful `priv_request_lists`: four fresh ids
registered for the bucket, counter bumped by four. -/
def request_lists_state (s : InMemoryServer) (bucket_id : BucketId) : InMemoryServer :=
  { s with
    request_count := s.request_count + 4,
    request_book :=
      alInsert (alInsert (alInsert (alInsert s.request_book
        (reqId (s.request_count + 1)) bucket_id)
        (reqId (s.request_count + 2)) bucket_id)
        (reqId (s.request_count + 3)) bucket_id)
        (reqId (s.request_count + 4)) bucket_id }

/-- State reached by serving a first `TrackDna` for a bucket whose agent
has a registered sink. -/
def trackdna_result_state (s : InMemoryServer) (msg : TrackDnaData) : InMemoryServer :=
  request_lists_state
    { s with trackdna_book := cat_dna_agent msg.dna_address msg.agent_id :: s.trackdna_book }
    (cat_dna_agent msg.dna_address msg.agent_id)

/-- The states a server can be in after any sequence of public
operations, starting from `InMemoryServer::new`.  `clock_out` is only
applicable when it does not assert, `serve` when it does not panic (a
panicking call aborts the process); a `serve` that merely returns `Err`
keeps its partial state, as in Rust.  `register` carries the spec's
precondition on agent ids. -/
inductive Reachable : InMemoryServer → Prop where
  | init (name : String) : Reachable (InMemoryServer.new name)
  | step_clock_in {s : InMemoryServer} : Reachable s → Reachable (clock_in s)
  | step_clock_out {s s' : InMemoryServer} : Reachable s → clock_out s = some s' →
      Reachable s'
  | step_register {s : InMemoryServer} (dna_address : Address) (agent_id : AgentId)
      (sender : SinkId) : Reachable s → (∀ c ∈ agent_id.data, c ≠ ':') →
      Reachable (register s dna_address agent_id sender).1
  | step_serve {s : InMemoryServer} (p : Protocol) : Reachable s →
      (serve s p).err ≠ some NetErr.panicked → Reachable (serve s p).state

/-- Every unicast sink is present in the multicast list of its DNA. -/
def SinksConsistent (s : InMemoryServer) : Prop :=
  ∀ (dna_address : Address) (agent_id : AgentId) (sender : SinkId),
    (∀ c ∈ agent_id.data, c ≠ ':') →
    alLookup s.senders (cat_dna_agent dna_address agent_id) = some sender →
    sender ∈ (alLookup s.senders_by_dna dna_address).getD []

/-! ### Concrete sample data for witnesses and counterexamples -/

def netName : String := "net"

def dnaA : Address := "dnaA"

def dnaB : Address := "dnaB"

def agentA : AgentId := "a1"

def entryX : Address := "X"

def entryY : Address := "Y"

def entryContentHi : String := "hi"

def requestRx : RequestId := "r-x"

def attrTag : String := "tag"

/-- A fresh server with agent `a1` registered on `dnaA` at sink `0`. -/
def sampleServer : InMemoryServer :=
  (register (InMemoryServer.new netName) dnaA agentA 0).1

/-- The same registration applied twice (same sink). -/
def dupServer : InMemoryServer :=
  (register sampleServer dnaA agentA 0).1

def sampleTrack : TrackDnaData := ⟨dnaA, agentA⟩

def sampleEntry : EntryData := ⟨dnaA, agentA, entryX, entryContentHi⟩

/-- A server whose `senders` has an entry for `dnaB::a1` but whose
`senders_by_dna` is empty. -/
def fetchNoPeersServer : InMemoryServer :=
  { InMemoryServer.new netName with senders := [(cat_dna_agent dnaB agentA, 3)] }

def sampleFetch : FetchEntryData := ⟨agentA, requestRx, dnaB, entryY⟩

/-- `sampleServer` with one pending internal request `req_1` for
`dnaA::a1`. -/
def requestBookServer : InMemoryServer :=
  { sampleServer with request_book := [(reqId 1, cat_dna_agent dnaA agentA)] }

def sampleFetchResult : FetchEntryResultData :=
  ⟨reqId 1, agentA, dnaA, agentA, entryX, entryContentHi⟩

def sampleFetchResultExternal : FetchEntryResultData :=
  ⟨requestRx, agentA, dnaA, agentA, entryX, entryContentHi⟩

def someErrorInfo : String := "err"

def sampleFailureInternal : FailureResultData := ⟨reqId 1, dnaA, agentA, someErrorInfo⟩

def sampleFailureExternal : FailureResultData := ⟨requestRx, dnaA, agentA, someErrorInfo⟩

def holdingMsgDup : EntryListData := ⟨reqId 1, dnaA, [entryX, entryX]⟩

def holdingMsgOk : EntryListData := ⟨reqId 1, dnaA, [entryX, entryY]⟩

def holdingMetaMsgOk : MetaListData := ⟨reqId 1, dnaA, [(entryX, attrTag)]⟩

/-! ### Association-list facts -/

theorem alLookup_alInsert_self {α β : Type} [DecidableEq α] (m : List (α × β)) (k : α) (v : β) :
    alLookup (alInsert m k v) k = some v := by
  induction m with
  | nil => simp [alInsert, alLookup]
  | cons p rest ih =>
    obtain ⟨a, b⟩ := p
    by_cases h : k = a
    · simp [alInsert, alLookup, h]
    · simp [alInsert, alLookup, h, ih]

theorem alLookup_alInsert_ne {α β : Type} [DecidableEq α] (m : List (α × β)) (k k' : α) (v : β)
    (h : k' ≠ k) : alLookup (alInsert m k v) k' = alLookup m k' := by
  induction m with
  | nil => simp [alInsert, alLookup, h]
  | cons p rest ih =>
    obtain ⟨a, b⟩ := p
    by_cases hk : k = a
    · subst hk
      simp [alInsert, alLookup, h]
    · by_cases hk' : k' = a
      · simp [alInsert, alLookup, hk, hk']
      · simp [alInsert, alLookup, hk, hk', ih]

theorem alLookup_eq_none_of_not_mem_keys {α β : Type} [DecidableEq α] (m : List (α × β)) (k : α)
    (h : k ∉ m.map Prod.fst) : alLookup m k = none := by
  induction m with
  | nil => rfl
  | cons p rest ih =>
    obtain ⟨a, b⟩ := p
    simp only [List.map_cons, List.mem_cons, not_or] at h
    simp [alLookup, h.1, ih h.2]

theorem alRemove_of_lookup_none {α β : Type} [DecidableEq α] (m : List (α × β)) (k : α)
    (h : alLookup m k = none) : alRemove m k = m := by
  induction m with
  | nil => rfl
  | cons p rest ih =>
    obtain ⟨a, b⟩ := p
    by_cases hk : k = a
    · simp [alLookup, hk] at h
    · simp only [alLookup, if_neg hk] at h
      simp [alRemove, hk, ih h]

theorem alLookup_alRemove_self_of_nodup {α β : Type} [DecidableEq α] (m : List (α × β)) (k : α)
    (h : (m.map Prod.fst).Nodup) : alLookup (alRemove m k) k = none := by
  induction m with
  | nil => rfl
  | cons p rest ih =>
    obtain ⟨a, b⟩ := p
    simp only [List.map_cons, List.nodup_cons] at h
    by_cases hk : k = a
    · subst hk
      simp only [alRemove, if_pos rfl]
      exact alLookup_eq_none_of_not_mem_keys rest _ h.1
    · simp [alRemove, alLookup, hk, ih h.2]

theorem alRemove_alRemove_self_of_nodup {α β : Type} [DecidableEq α] (m : List (α × β)) (k : α)
    (h : (m.map Prod.fst).Nodup) : alRemove (alRemove m k) k = alRemove m k :=
  alRemove_of_lookup_none _ _ (alLookup_alRemove_self_of_nodup m k h)

/-! ### Injectivity of the decimal request-id representation -/

theorem digitChar_inj_lt : ∀ a : Nat, a < 10 → ∀ b : Nat, b < 10 →
    Nat.digitChar a = Nat.digitChar b → a = b := by
  decide

theorem map_digitChar_inj : ∀ (l1 l2 : List Nat), (∀ x ∈ l1, x < 10) → (∀ x ∈ l2, x < 10) →
    l1.map Nat.digitChar = l2.map Nat.digitChar → l1 = l2 := by
  intro l1
  induction l1 with
  | nil => intro l2 _ _ h; cases l2 <;> simp_all
  | cons a l1 ih =>
    intro l2 h1 h2 h
    cases l2 with
    | nil => simp at h
    | cons b l2 =>
      simp only [List.map_cons, List.cons.injEq] at h
      have ha : a < 10 := h1 a (by simp)
      have hb : b < 10 := h2 b (by simp)
      have : a = b := digitChar_inj_lt a ha b hb h.1
      subst this
      have : l1 = l2 := ih l2 (fun x hx => h1 x (by simp [hx])) (fun x hx => h2 x (by simp [hx])) h.2
      simp [this]

theorem toDigitsCore_eq_digits : ∀ (n : Nat), 0 < n → ∀ (fuel : Nat) (acc : List Char),
    n < fuel →
    Nat.toDigitsCore 10 fuel n acc = ((Nat.digits 10 n).map Nat.digitChar).reverse ++ acc := by
  intro n
  induction n using Nat.strong_induction_on with
  | _ n ih =>
    intro hn fuel acc hfuel
    match fuel with
    | 0 => omega
    | f + 1 =>
      rw [Nat.digits_def' (b := 10) (by norm_num) hn]
      by_cases h : n / 10 = 0
      · have : Nat.digits 10 (n / 10) = [] := by
          rw [h]
          simp
        simp [Nat.toDigitsCore, h, this]
      · have hdiv : n / 10 < n := Nat.div_lt_self hn (by norm_num)
        have hrec := ih (n / 10) hdiv (Nat.pos_of_ne_zero h) f (Nat.digitChar (n % 10) :: acc)
          (by omega)
        simp only [Nat.toDigitsCore, if_neg h]
        rw [hrec, Nat.digits_def' (b := 10) (by norm_num) (Nat.pos_of_ne_zero h)]
        simp

theorem Nat_repr_inj_pos {m n : Nat} (hm : 0 < m) (hn : 0 < n) (h : Nat.repr m = Nat.repr n) :
    m = n := by
  unfold Nat.repr Nat.toDigits at h
  rw [toDigitsCore_eq_digits m hm _ _ (Nat.lt_succ_self m),
    toDigitsCore_eq_digits n hn _ _ (Nat.lt_succ_self n)] at h
  simp only [List.asString, List.append_nil] at h
  have hdata : ((Nat.digits 10 m).map Nat.digitChar).reverse =
      ((Nat.digits 10 n).map Nat.digitChar).reverse := congrArg String.data h
  rw [List.reverse_inj] at hdata
  have : Nat.digits 10 m = Nat.digits 10 n :=
    map_digitChar_inj _ _ (fun x hx => Nat.digits_lt_base (by norm_num) hx)
      (fun x hx => Nat.digits_lt_base (by norm_num) hx) hdata
  exact Nat.digits.injective 10 this

theorem string_data_append (s t : String) : (s ++ t).data = s.data ++ t.data := by
  cases s
  cases t
  rfl

theorem string_append_left_cancel {s t u : String} (h : s ++ t = s ++ u) : t = u := by
  have hd : s.data ++ t.data = s.data ++ u.data := by
    rw [← string_data_append, ← string_data_append, h]
  exact String.ext (List.append_cancel_left hd)

theorem reqId_inj_pos {a b : Nat} (ha : 0 < a) (hb : 0 < b) (h : reqId a = reqId b) : a = b :=
  Nat_repr_inj_pos ha hb (string_append_left_cancel h)

/-! ### Frame properties of `serve`

`serve` never touches the routing tables (`senders`, `senders_by_dna`),
the server identity, the client count or the (never written)
`published_meta_book`, and it never removes a bucket from
`trackdna_book`. -/

theorem onlyBooksChanged_refl (s : InMemoryServer) : OnlyBooksChanged s s :=
  ⟨rfl, rfl, rfl, rfl, rfl, fun _ hx => hx⟩

theorem onlyBooksChanged_trans {s1 s2 s3 : InMemoryServer} (h1 : OnlyBooksChanged s1 s2)
    (h2 : OnlyBooksChanged s2 s3) : OnlyBooksChanged s1 s3 :=
  ⟨h2.1.trans h1.1, h2.2.1.trans h1.2.1, h2.2.2.1.trans h1.2.2.1,
    h2.2.2.2.1.trans h1.2.2.2.1, h2.2.2.2.2.1.trans h1.2.2.2.2.1,
    fun _ hx => h2.2.2.2.2.2 (h1.2.2.2.2.2 hx)⟩

theorem onlyBooksChanged_create_request_with_bucket (s : InMemoryServer) (b : BucketId) :
    OnlyBooksChanged s (priv_create_request_with_bucket s b).1 :=
  ⟨rfl, rfl, rfl, rfl, rfl, fun _ hx => hx⟩

theorem publishingListLoop_onlyBooks (bucket_id : BucketId) (dna_address : Address)
    (known : List Address) :
    ∀ (l : List Address) (s : InMemoryServer) (outs : List Out),
    OnlyBooksChanged s (publishingListLoop bucket_id dna_address known s outs l).state := by
  intro l
  induction l with
  | nil => intro s outs; exact onlyBooksChanged_refl s
  | cons a rest ih =>
    intro s outs
    by_cases h : a ∈ known
    · simpa [publishingListLoop, h] using ih s outs
    · simp only [publishingListLoop, if_neg h]
      rcases hsr : alLookup (priv_create_request_with_bucket s bucket_id).1.senders bucket_id
        with _ | snd
      · simp only [priv_send_one_with_bucket, hsr]
        exact onlyBooksChanged_create_request_with_bucket s bucket_id
      · simp only [priv_send_one_with_bucket, hsr]
        exact onlyBooksChanged_trans (onlyBooksChanged_create_request_with_bucket s bucket_id)
          (ih _ _)

theorem publishingMetaListLoop_onlyBooks (bucket_id : BucketId) (dna_address : Address)
    (known : List Address) :
    ∀ (l : List (Address × String)) (s : InMemoryServer) (outs : List Out),
    OnlyBooksChanged s (publishingMetaListLoop bucket_id dna_address known s outs l).state := by
  intro l
  induction l with
  | nil => intro s outs; exact onlyBooksChanged_refl s
  | cons p rest ih =>
    obtain ⟨a, attrib⟩ := p
    intro s outs
    by_cases h : a ∈ known
    · simpa [publishingMetaListLoop, h] using ih s outs
    · simp only [publishingMetaListLoop, if_neg h]
      rcases hsr : alLookup (priv_create_request_with_bucket s bucket_id).1.senders bucket_id
        with _ | snd
      · simp only [priv_send_one_with_bucket, hsr]
        exact onlyBooksChanged_create_request_with_bucket s bucket_id
      · simp only [priv_send_one_with_bucket, hsr]
        exact onlyBooksChanged_trans (onlyBooksChanged_create_request_with_bucket s bucket_id)
          (ih _ _)

theorem priv_request_one_onlyBooks (s : InMemoryServer) (dna_address : Address)
    (agent_id : AgentId) (kind : ListRequestKind) :
    OnlyBooksChanged s (priv_request_one s dna_address agent_id kind).state := by
  unfold priv_request_one
  dsimp only
  split
  all_goals exact ⟨rfl, rfl, rfl, rfl, rfl, fun _ hx => hx⟩

theorem priv_request_lists_onlyBooks (s : InMemoryServer) (dna_address : Address)
    (agent_id : AgentId) :
    OnlyBooksChanged s (priv_request_lists s dna_address agent_id).state := by
  have o1 := priv_request_one_onlyBooks s dna_address agent_id ListRequestKind.publishingEntry
  have o2 := onlyBooksChanged_trans o1 (priv_request_one_onlyBooks
    (priv_request_one s dna_address agent_id ListRequestKind.publishingEntry).state
    dna_address agent_id ListRequestKind.holdingEntry)
  have o3 := onlyBooksChanged_trans o2 (priv_request_one_onlyBooks
    (priv_request_one
      (priv_request_one s dna_address agent_id ListRequestKind.publishingEntry).state
      dna_address agent_id ListRequestKind.holdingEntry).state
    dna_address agent_id ListRequestKind.publishingMeta)
  have o4 := onlyBooksChanged_trans o3 (priv_request_one_onlyBooks
    (priv_request_one
      (priv_request_one
        (priv_request_one s dna_address agent_id ListRequestKind.publishingEntry).state
        dna_address agent_id ListRequestKind.holdingEntry).state
      dna_address agent_id ListRequestKind.publishingMeta).state
    dna_address agent_id ListRequestKind.holdingMeta)
  unfold priv_request_lists
  dsimp only
  rcases h1 : (priv_request_one s dna_address agent_id ListRequestKind.publishingEntry).err
    with _ | e1
  · simp only [h1]
    rcases h2 : (priv_request_one
        (priv_request_one s dna_address agent_id ListRequestKind.publishingEntry).state
        dna_address agent_id ListRequestKind.holdingEntry).err with _ | e2
    · simp only [h2]
      rcases h3 : (priv_request_one
          (priv_request_one
            (priv_request_one s dna_address agent_id ListRequestKind.publishingEntry).state
            dna_address agent_id ListRequestKind.holdingEntry).state
          dna_address agent_id ListRequestKind.publishingMeta).err with _ | e3
      · simp only [h3]
        exact o4
      · simp only [h3]
        exact o3
    · simp only [h2]
      exact o2
  · simp only [h1]
    exact o1

theorem onlyBooksChanged_drop (s : InMemoryServer) (id : RequestId) :
    OnlyBooksChanged s (priv_drop_request s id).1 :=
  ⟨rfl, rfl, rfl, rfl, rfl, fun _ hx => hx⟩

theorem onlyBooksChanged_check (s : InMemoryServer) (id : RequestId) :
    OnlyBooksChanged s (priv_check_request s id).1 := by
  unfold priv_check_request
  split
  · exact onlyBooksChanged_refl s
  · exact onlyBooksChanged_drop s id

theorem onlyBooksChanged_publishData (s : InMemoryServer) (msg : EntryData) :
    OnlyBooksChanged s (priv_serve_PublishDhtData s msg).state :=
  ⟨rfl, rfl, rfl, rfl, rfl, fun _ hx => hx⟩

theorem priv_serve_FetchDhtData_onlyBooks (s : InMemoryServer) (msg : FetchEntryData) :
    OnlyBooksChanged s (priv_serve_FetchDhtData s msg).state := by
  unfold priv_serve_FetchDhtData
  split
  all_goals exact onlyBooksChanged_refl s

theorem priv_serve_FetchDhtMeta_onlyBooks (s : InMemoryServer) (msg : FetchMetaData) :
    OnlyBooksChanged s (priv_serve_FetchDhtMeta s msg).state := by
  unfold priv_serve_FetchDhtMeta
  split
  all_goals exact onlyBooksChanged_refl s

theorem priv_serve_HandleFetchDhtDataResult_onlyBooks (s : InMemoryServer)
    (msg : FetchEntryResultData) :
    OnlyBooksChanged s (priv_serve_HandleFetchDhtDataResult s msg).state := by
  unfold priv_serve_HandleFetchDhtDataResult
  dsimp only
  split
  · exact onlyBooksChanged_trans (onlyBooksChanged_drop s msg.request_id)
      (onlyBooksChanged_publishData _ _)
  · exact onlyBooksChanged_drop s msg.request_id

theorem priv_serve_HandleFetchDhtMetaResult_onlyBooks (s : InMemoryServer)
    (msg : FetchMetaResultData) :
    OnlyBooksChanged s (priv_serve_HandleFetchDhtMetaResult s msg).state := by
  unfold priv_serve_HandleFetchDhtMetaResult
  dsimp only
  split
  · exact onlyBooksChanged_drop s msg.request_id
  · exact onlyBooksChanged_drop s msg.request_id

theorem priv_serve_HandleGetPublishingDataListResult_onlyBooks (s : InMemoryServer)
    (msg : EntryListData) :
    OnlyBooksChanged s (priv_serve_HandleGetPublishingDataListResult s msg).state := by
  unfold priv_serve_HandleGetPublishingDataListResult
  dsimp only
  split
  · exact onlyBooksChanged_check s msg.request_id
  · exact onlyBooksChanged_trans (onlyBooksChanged_check s msg.request_id)
      (publishingListLoop_onlyBooks _ _ _ _ _ _)

theorem priv_serve_HandleGetPublishingMetaListResult_onlyBooks (s : InMemoryServer)
    (msg : MetaListData) :
    OnlyBooksChanged s (priv_serve_HandleGetPublishingMetaListResult s msg).state := by
  unfold priv_serve_HandleGetPublishingMetaListResult
  dsimp only
  split
  · exact onlyBooksChanged_check s msg.request_id
  · exact onlyBooksChanged_trans (onlyBooksChanged_check s msg.request_id)
      (publishingMetaListLoop_onlyBooks _ _ _ _ _ _)

theorem priv_serve_HandleGetHoldingDataListResult_onlyBooks (s : InMemoryServer)
    (msg : EntryListData) :
    OnlyBooksChanged s (priv_serve_HandleGetHoldingDataListResult s msg).state := by
  unfold priv_serve_HandleGetHoldingDataListResult
  dsimp only
  split
  · exact onlyBooksChanged_check s msg.request_id
  · exact onlyBooksChanged_trans (onlyBooksChanged_check s msg.request_id)
      ⟨rfl, rfl, rfl, rfl, rfl, fun _ hx => hx⟩

theorem priv_serve_HandleGetHoldingMetaListResult_onlyBooks (s : InMemoryServer)
    (msg : MetaListData) :
    OnlyBooksChanged s (priv_serve_HandleGetHoldingMetaListResult s msg).state := by
  unfold priv_serve_HandleGetHoldingMetaListResult
  dsimp only
  split
  · exact onlyBooksChanged_check s msg.request_id
  · exact onlyBooksChanged_trans (onlyBooksChanged_check s msg.request_id)
      ⟨rfl, rfl, rfl, rfl, rfl, fun _ hx => hx⟩

/-- `serve` only ever touches the books and the request ledger: the
routing tables, the name, the client count and `published_meta_book` are
left alone, and tracked buckets stay tracked. -/
theorem serve_onlyBooksChanged (s : InMemoryServer) (p : Protocol) :
    OnlyBooksChanged s (serve s p).state := by
  cases p with
  | NonJsonFrame => exact onlyBooksChanged_refl s
  | Json j =>
    cases j with
    | SuccessResult msg => exact onlyBooksChanged_refl s
    | FailureResult msg =>
      show OnlyBooksChanged s (match (priv_check_request s msg.request_id).2 with
        | some _ => (⟨[], (priv_drop_request (priv_check_request s msg.request_id).1
            msg.request_id).1, none⟩ : ServeResult)
        | none =>
          ⟨(priv_send_one (priv_check_request s msg.request_id).1 msg.dna_address
              msg.to_agent_id (Protocol.Json (JsonProtocol.FailureResult msg))).1,
            (priv_check_request s msg.request_id).1,
            (priv_send_one (priv_check_request s msg.request_id).1 msg.dna_address
              msg.to_agent_id (Protocol.Json (JsonProtocol.FailureResult msg))).2⟩).state
      split
      · exact onlyBooksChanged_trans (onlyBooksChanged_check s msg.request_id)
          (onlyBooksChanged_drop _ msg.request_id)
      · exact onlyBooksChanged_check s msg.request_id
    | TrackDna msg =>
      show OnlyBooksChanged s (serve s (Protocol.Json (JsonProtocol.TrackDna msg))).state
      unfold serve
      dsimp only
      split
      · exact onlyBooksChanged_refl s
      · exact @onlyBooksChanged_trans s
          { s with trackdna_book :=
              cat_dna_agent msg.dna_address msg.agent_id :: s.trackdna_book } _
          ⟨rfl, rfl, rfl, rfl, rfl, fun _ hx => List.mem_cons_of_mem _ hx⟩
          (priv_request_lists_onlyBooks _ msg.dna_address msg.agent_id)
    | SendMessage msg => exact onlyBooksChanged_refl s
    | HandleSendMessageResult msg => exact onlyBooksChanged_refl s
    | FetchEntry msg => exact priv_serve_FetchDhtData_onlyBooks s msg
    | HandleFetchEntryResult msg => exact priv_serve_HandleFetchDhtDataResult_onlyBooks s msg
    | PublishEntry msg => exact onlyBooksChanged_publishData s msg
    | FetchMeta msg => exact priv_serve_FetchDhtMeta_onlyBooks s msg
    | HandleFetchMetaResult msg => exact priv_serve_HandleFetchDhtMetaResult_onlyBooks s msg
    | PublishMeta msg => exact onlyBooksChanged_refl s
    | HandleGetPublishingEntryListResult msg =>
      exact priv_serve_HandleGetPublishingDataListResult_onlyBooks s msg
    | HandleGetHoldingEntryListResult msg =>
      exact priv_serve_HandleGetHoldingDataListResult_onlyBooks s msg
    | HandleGetPublishingMetaListResult msg =>
      exact priv_serve_HandleGetPublishingMetaListResult_onlyBooks s msg
    | HandleGetHoldingMetaListResult msg =>
      exact priv_serve_HandleGetHoldingMetaListResult_onlyBooks s msg
    | PeerConnected msg => exact onlyBooksChanged_refl s
    | HandleSendMessage msg => exact onlyBooksChanged_refl s
    | SendMessageResult msg => exact onlyBooksChanged_refl s
    | HandleStoreEntry msg => exact onlyBooksChanged_refl s
    | HandleFetchEntry msg => exact onlyBooksChanged_refl s
    | FetchEntryResult msg => exact onlyBooksChanged_refl s
    | HandleStoreMeta msg => exact onlyBooksChanged_refl s
    | HandleFetchMeta msg => exact onlyBooksChanged_refl s
    | FetchMetaResult msg => exact onlyBooksChanged_refl s
    | HandleGetPublishingEntryList msg => exact onlyBooksChanged_refl s
    | HandleGetHoldingEntryList msg => exact onlyBooksChanged_refl s
    | HandleGetPublishingMetaList msg => exact onlyBooksChanged_refl s
    | HandleGetHoldingMetaList msg => exact onlyBooksChanged_refl s
    | OtherVariant => exact onlyBooksChanged_refl s

/-! ### The `TrackDna` success path -/

theorem priv_create_request_fst_senders (s : InMemoryServer) (dna_address : Address)
    (agent_id : AgentId) :
    (priv_create_request s dna_address agent_id).1.senders = s.senders :=
  rfl

theorem priv_create_request_fst (s : InMemoryServer) (dna_address : Address)
    (agent_id : AgentId) :
    (priv_create_request s dna_address agent_id).1 =
      { s with
        request_count := s.request_count + 1,
        request_book := alInsert s.request_book (reqId (s.request_count + 1))
          (cat_dna_agent dna_address agent_id) } :=
  rfl

theorem priv_request_one_success (s : InMemoryServer) (dna_address : Address)
    (agent_id : AgentId) (sender : SinkId) (kind : ListRequestKind)
    (h : alLookup s.senders (cat_dna_agent dna_address agent_id) = some sender) :
    priv_request_one s dna_address agent_id kind =
      ⟨[(sender, Protocol.Json (listRequestMsg kind
          ⟨reqId (s.request_count + 1), dna_address⟩))],
        (priv_create_request s dna_address agent_id).1, none⟩ := by
  have hp : alLookup (priv_create_request s dna_address agent_id).1.senders
      (cat_dna_agent dna_address agent_id) = some sender := h
  simp [priv_request_one, priv_send_one, priv_send_one_with_bucket, hp]
  rfl

theorem priv_request_lists_success (s : InMemoryServer) (dna_address : Address)
    (agent_id : AgentId) (sender : SinkId)
    (h : alLookup s.senders (cat_dna_agent dna_address agent_id) = some sender) :
    priv_request_lists s dna_address agent_id =
      ⟨reconciliation_requests dna_address agent_id sender s.request_count,
        request_lists_state s (cat_dna_agent dna_address agent_id), none⟩ := by
  have h1 := priv_request_one_success s dna_address agent_id sender
    ListRequestKind.publishingEntry h
  have h2 := priv_request_one_success (priv_create_request s dna_address agent_id).1
    dna_address agent_id sender ListRequestKind.holdingEntry
    (by rw [priv_create_request_fst_senders]; exact h)
  have h3 := priv_request_one_success
    (priv_create_request (priv_create_request s dna_address agent_id).1
      dna_address agent_id).1 dna_address agent_id sender ListRequestKind.publishingMeta
    (by rw [priv_create_request_fst_senders, priv_create_request_fst_senders]; exact h)
  have h4 := priv_request_one_success
    (priv_create_request (priv_create_request (priv_create_request s dna_address agent_id).1
      dna_address agent_id).1 dna_address agent_id).1
    dna_address agent_id sender ListRequestKind.holdingMeta
    (by rw [priv_create_request_fst_senders, priv_create_request_fst_senders,
      priv_create_request_fst_senders]; exact h)
  simp only [priv_request_lists, h1, h2, h3, h4]
  simp only [priv_create_request_fst]
  simp only [show s.request_count + 1 + 1 = s.request_count + 2 from rfl,
    show s.request_count + 2 + 1 = s.request_count + 3 from rfl,
    show s.request_count + 3 + 1 = s.request_count + 4 from rfl]
  simp [reconciliation_requests, request_lists_state, listRequestMsg]

theorem serve_trackdna_untracked (s : InMemoryServer) (msg : TrackDnaData) (sender : SinkId)
    (h1 : cat_dna_agent msg.dna_address msg.agent_id ∉ s.trackdna_book)
    (h2 : alLookup s.senders (cat_dna_agent msg.dna_address msg.agent_id) = some sender) :
    serve s (Protocol.Json (JsonProtocol.TrackDna msg)) =
      ⟨priv_send_all s msg.dna_address
          (Protocol.Json (JsonProtocol.PeerConnected ⟨msg.agent_id⟩))
        ++ reconciliation_requests msg.dna_address msg.agent_id sender s.request_count,
        trackdna_result_state s msg, none⟩ := by
  have hs2 :
      alLookup
        ({ s with trackdna_book :=
             cat_dna_agent msg.dna_address msg.agent_id :: s.trackdna_book }).senders
        (cat_dna_agent msg.dna_address msg.agent_id) = some sender := h2
  have hr := priv_request_lists_success _ msg.dna_address msg.agent_id sender hs2
  unfold serve
  dsimp only
  rw [if_neg h1, hr]
  rfl

/-! ### Bucket-id injectivity

`cat_dna_agent` is injective as long as agent ids contain no colon (the
spec states agent ids must not contain `"::"`; colon-freeness is the
robust version of that precondition - `dna = "A:"`/`agent = "B"` and
`dna = "A"`/`agent = ":B"` collide even though neither agent contains
`"::"`). -/

theorem takeWhile_append_nocolon (r : List Char) :
    ∀ (l : List Char), (∀ c ∈ l, c ≠ ':') →
      (l ++ ':' :: r).takeWhile (fun c => c != ':') = l := by
  intro l
  induction l with
  | nil => intro _; simp
  | cons c cs ih =>
    intro h
    have hc : c ≠ ':' := h c (by simp)
    simp only [List.cons_append, List.takeWhile_cons]
    simp [hc, ih (fun x hx => h x (by simp [hx]))]

theorem dropWhile_append_nocolon (r : List Char) :
    ∀ (l : List Char), (∀ c ∈ l, c ≠ ':') →
      (l ++ ':' :: r).dropWhile (fun c => c != ':') = ':' :: r := by
  intro l
  induction l with
  | nil => intro _; simp
  | cons c cs ih =>
    intro h
    have hc : c ≠ ':' := h c (by simp)
    simp only [List.cons_append, List.dropWhile_cons]
    simp [hc, ih (fun x hx => h x (by simp [hx]))]

theorem cat_dna_agent_data (dna_address : Address) (agent_id : AgentId) :
    (cat_dna_agent dna_address agent_id).data =
      (dna_address.data ++ [':', ':']) ++ agent_id.data := by
  simp [cat_dna_agent, string_data_append]

theorem cat_dna_agent_inj {d1 a1 d2 a2 : String}
    (h1 : ∀ c ∈ a1.data, c ≠ ':') (h2 : ∀ c ∈ a2.data, c ≠ ':')
    (h : cat_dna_agent d1 a1 = cat_dna_agent d2 a2) : d1 = d2 ∧ a1 = a2 := by
  have hd : (d1.data ++ [':', ':']) ++ a1.data = (d2.data ++ [':', ':']) ++ a2.data := by
    rw [← cat_dna_agent_data, ← cat_dna_agent_data, h]
  have hrev : a1.data.reverse ++ ':' :: ':' :: d1.data.reverse =
      a2.data.reverse ++ ':' :: ':' :: d2.data.reverse := by
    have := congrArg List.reverse hd
    simpa [List.reverse_append] using this
  have h1r : ∀ c ∈ a1.data.reverse, c ≠ ':' := fun c hc => h1 c (List.mem_reverse.mp hc)
  have h2r : ∀ c ∈ a2.data.reverse, c ≠ ':' := fun c hc => h2 c (List.mem_reverse.mp hc)
  have htake : a1.data.reverse = a2.data.reverse := by
    have := congrArg (List.takeWhile (fun c => c != ':')) hrev
    rwa [takeWhile_append_nocolon _ _ h1r, takeWhile_append_nocolon _ _ h2r] at this
  have hdrop : (':' :: ':' :: d1.data.reverse : List Char) = ':' :: ':' :: d2.data.reverse := by
    have := congrArg (List.dropWhile (fun c => c != ':')) hrev
    rwa [dropWhile_append_nocolon _ _ h1r, dropWhile_append_nocolon _ _ h2r] at this
  have hd12 : d1.data.reverse = d2.data.reverse := by
    injection hdrop with _ hdrop1
    injection hdrop1
  constructor
  · exact String.ext (List.reverse_injective hd12)
  · exact String.ext (List.reverse_injective htake)

/-! ### Reachable states and the routing-table invariant -/

theorem register_fst_senders (s : InMemoryServer) (dna_address : Address) (agent_id : AgentId)
    (sender : SinkId) :
    (register s dna_address agent_id sender).1.senders =
      alInsert s.senders (cat_dna_agent dna_address agent_id) sender :=
  rfl

theorem register_fst_senders_by_dna (s : InMemoryServer) (dna_address : Address)
    (agent_id : AgentId) (sender : SinkId) :
    (register s dna_address agent_id sender).1.senders_by_dna =
      alInsert s.senders_by_dna dna_address
        ((alLookup s.senders_by_dna dna_address).getD [] ++ [sender]) := by
  unfold register
  dsimp only
  rcases h : alLookup s.senders_by_dna dna_address with _ | arr
  · simp [h]
  · simp [h]

theorem reachable_sinksConsistent {s : InMemoryServer} (h : Reachable s) :
    SinksConsistent s := by
  induction h with
  | init name =>
    intro d a snd _ hlk
    simp [InMemoryServer.new, alLookup] at hlk
  | step_clock_in _ ih =>
    intro d a snd hg hlk
    exact ih d a snd hg hlk
  | step_clock_out _ hco ih =>
    rename_i t t' _
    intro d a snd hg hlk
    unfold clock_out at hco
    by_cases h0 : t.client_count = 0
    · rw [if_pos h0] at hco
      exact absurd hco (by simp)
    · rw [if_neg h0] at hco
      dsimp only at hco
      by_cases h1 : t.client_count - 1 = 0
      · rw [if_pos h1] at hco
        injection hco with h2
        rw [← h2] at hlk
        simp [alLookup] at hlk
      · rw [if_neg h1] at hco
        injection hco with h2
        rw [← h2] at hlk ⊢
        exact ih d a snd hg hlk
  | step_register dna_address agent_id sender _ hai ih =>
    rename_i t _
    intro d a snd hg hlk
    rw [register_fst_senders] at hlk
    rw [register_fst_senders_by_dna]
    by_cases hk : cat_dna_agent d a = cat_dna_agent dna_address agent_id
    · obtain ⟨hdna, hag⟩ := cat_dna_agent_inj hg hai hk
      subst hdna
      subst hag
      rw [alLookup_alInsert_self] at hlk
      obtain rfl : sender = snd := by
        injection hlk
      rw [alLookup_alInsert_self]
      simp
    · rw [alLookup_alInsert_ne _ _ _ _ hk] at hlk
      by_cases hdna : d = dna_address
      · subst hdna
        rw [alLookup_alInsert_self]
        simp only [Option.getD_some]
        exact List.mem_append_left _ (ih d a snd hg hlk)
      · rw [alLookup_alInsert_ne _ _ _ _ hdna]
        exact ih d a snd hg hlk
  | step_serve p _ _ ih =>
    rename_i t _ _
    intro d a snd hg hlk
    have hf := serve_onlyBooksChanged t p
    rw [hf.1] at hlk
    rw [hf.2.1]
    exact ih d a snd hg hlk

/-! ### Supporting lemmas for the claims -/

theorem priv_send_all_eq_map (s : InMemoryServer) (dna_address : Address) (data : Protocol) :
    priv_send_all s dna_address data =
      ((alLookup s.senders_by_dna dna_address).getD []).map (fun sender => (sender, data)) := by
  unfold priv_send_all
  rcases h : alLookup s.senders_by_dna dna_address with _ | arr <;> simp [h]

theorem bookkeep_getD (book : AddressBook) (bucket_id : BucketId) (address : Address) :
    (alLookup (bookkeep_address_with_bucket book bucket_id address) bucket_id).getD [] =
      (alLookup book bucket_id).getD [] ++ [address] := by
  unfold bookkeep_address_with_bucket
  rcases h : alLookup book bucket_id with _ | vec <;> simp [h, alLookup_alInsert_self]

theorem bookkeep_getD_other (book : AddressBook) (bucket_id other : BucketId)
    (address : Address) (h : other ≠ bucket_id) :
    alLookup (bookkeep_address_with_bucket book bucket_id address) other =
      alLookup book other := by
  unfold bookkeep_address_with_bucket
  rcases hb : alLookup book bucket_id with _ | vec <;>
    simp [hb, alLookup_alInsert_ne _ _ _ _ h]

theorem count_map_pair (data : Protocol) (x : SinkId) :
    ∀ l : List SinkId, (l.map (fun sender => (sender, data))).count (x, data) = l.count x := by
  intro l
  induction l with
  | nil => rfl
  | cons a rest ih =>
    by_cases hx : a = x
    · simp [hx, List.count_cons, ih]
    · simp [List.count_cons, ih, hx, Prod.ext_iff]

theorem reqId_ne {a b : Nat} (ha : 0 < a) (hb : 0 < b) (h : a ≠ b) : reqId a ≠ reqId b :=
  fun he => h (reqId_inj_pos ha hb he)

theorem holdingListLoop_nodup (bucket_id : BucketId) (known : List Address) :
    ∀ (l : List Address) (book : AddressBook),
      ((alLookup book bucket_id).getD []).Nodup →
      l.Nodup →
      (∀ x ∈ l, x ∉ known → x ∉ (alLookup book bucket_id).getD []) →
      ((alLookup (holdingListLoop bucket_id known book l) bucket_id).getD []).Nodup := by
  intro l
  induction l with
  | nil => intro book hb _ _; exact hb
  | cons a rest ih =>
    intro book hb hl hfresh
    rw [List.nodup_cons] at hl
    by_cases ha : a ∈ known
    · simp only [holdingListLoop, if_pos ha]
      exact ih book hb hl.2 (fun x hx => hfresh x (by simp [hx]))
    · simp only [holdingListLoop, if_neg ha]
      apply ih
      · rw [bookkeep_getD]
        refine List.Nodup.append hb (List.nodup_singleton a) ?_
        intro x hx hx1
        rw [List.mem_singleton] at hx1
        subst hx1
        exact hfresh x (by simp) ha hx
      · exact hl.2
      · intro x hx hxk
        rw [bookkeep_getD]
        intro hmem
        rcases List.mem_append.mp hmem with hm | hm
        · exact hfresh x (by simp [hx]) hxk hm
        · rw [List.mem_singleton] at hm
          subst hm
          exact hl.1 hx

theorem holdingMetaListLoop_nodup (bucket_id : BucketId) (known : List Address) :
    ∀ (l : List (Address × String)) (book : AddressBook),
      ((alLookup book bucket_id).getD []).Nodup →
      (l.map (fun pr => meta_to_address pr.1 pr.2)).Nodup →
      (∀ pr ∈ l, pr.1 ∉ known →
        meta_to_address pr.1 pr.2 ∉ (alLookup book bucket_id).getD []) →
      ((alLookup (holdingMetaListLoop bucket_id known book l) bucket_id).getD []).Nodup := by
  intro l
  induction l with
  | nil => intro book hb _ _; exact hb
  | cons pr rest ih =>
    obtain ⟨da, attrib⟩ := pr
    intro book hb hl hfresh
    rw [List.map_cons, List.nodup_cons] at hl
    by_cases ha : da ∈ known
    · simp only [holdingMetaListLoop, if_pos ha]
      exact ih book hb hl.2 (fun x hx => hfresh x (by simp [hx]))
    · simp only [holdingMetaListLoop, if_neg ha]
      apply ih
      · rw [bookkeep_getD]
        refine List.Nodup.append hb (List.nodup_singleton _) ?_
        intro x hx hx1
        rw [List.mem_singleton] at hx1
        subst hx1
        exact hfresh ⟨da, attrib⟩ (by simp) ha hx
      · exact hl.2
      · intro x hx hxk
        rw [bookkeep_getD]
        intro hmem
        rcases List.mem_append.mp hmem with hm | hm
        · exact hfresh x (by simp [hx]) hxk hm
        · rw [List.mem_singleton] at hm
          have : meta_to_address x.1 x.2 ∈ rest.map (fun pr => meta_to_address pr.1 pr.2) :=
            List.mem_map_of_mem _ hx
          rw [hm] at this
          exact hl.1 this

/-! ### The claims -/

/-- C1: for a given `(dna_address, agent_id)` pair, only the first
`TrackDna` changes state and emits messages - exactly one `PeerConnected`
multicast followed by the batch of four reconciliation requests; once the
bucket is tracked it stays tracked under every operation, and any later
`TrackDna` for the pair leaves the state untouched, emits nothing and
returns `Ok`. -/
theorem C1_trackdna_idempotent :
    (∀ (s : InMemoryServer) (msg : TrackDnaData),
      cat_dna_agent msg.dna_address msg.agent_id ∈ s.trackdna_book →
      serve s (Protocol.Json (JsonProtocol.TrackDna msg)) = ⟨[], s, none⟩)
    ∧ (∀ (s : InMemoryServer) (msg : TrackDnaData) (sender : SinkId),
      cat_dna_agent msg.dna_address msg.agent_id ∉ s.trackdna_book →
      alLookup s.senders (cat_dna_agent msg.dna_address msg.agent_id) = some sender →
      serve s (Protocol.Json (JsonProtocol.TrackDna msg)) =
        ⟨priv_send_all s msg.dna_address
            (Protocol.Json (JsonProtocol.PeerConnected ⟨msg.agent_id⟩))
          ++ reconciliation_requests msg.dna_address msg.agent_id sender s.request_count,
          trackdna_result_state s msg, none⟩
        ∧ cat_dna_agent msg.dna_address msg.agent_id ∈
            (trackdna_result_state s msg).trackdna_book)
    ∧ (∀ (s : InMemoryServer) (p : Protocol),
      s.trackdna_book ⊆ (serve s p).state.trackdna_book)
    ∧ (∀ (s : InMemoryServer) (dna_address : Address) (agent_id : AgentId) (sender : SinkId),
      (register s dna_address agent_id sender).1.trackdna_book = s.trackdna_book)
    ∧ (∀ s : InMemoryServer, (clock_in s).trackdna_book = s.trackdna_book)
    ∧ (∀ (s s' : InMemoryServer), clock_out s = some s' →
      s'.trackdna_book = s.trackdna_book) := by
  refine ⟨?_, ?_, ?_, ?_, ?_, ?_⟩
  · intro s msg h
    unfold serve
    dsimp only
    rw [if_pos h]
  · intro s msg sender h1 h2
    refine ⟨serve_trackdna_untracked s msg sender h1 h2, ?_⟩
    exact List.mem_cons_self _ _
  · intro s p
    exact (serve_onlyBooksChanged s p).2.2.2.2.2
  · intro s dna_address agent_id sender
    rfl
  · intro s
    rfl
  · intro s s' hco
    unfold clock_out at hco
    by_cases h0 : s.client_count = 0
    · rw [if_pos h0] at hco
      exact absurd hco (by simp)
    · rw [if_neg h0] at hco
      dsimp only at hco
      by_cases h1 : s.client_count - 1 = 0
      · rw [if_pos h1] at hco
        injection hco with h2
        rw [← h2]
      · rw [if_neg h1] at hco
        injection hco with h2
        rw [← h2]

/-- Witness for C1: on a fresh server with `a1` registered, the first
`TrackDna` emits the five messages; serving the same `TrackDna` on the
resulting state is a no-op that returns `Ok`. -/
theorem C1_trackdna_idempotent_witness :
    (cat_dna_agent dnaA agentA ∉ sampleServer.trackdna_book) ∧
    (alLookup sampleServer.senders (cat_dna_agent dnaA agentA) = some 0) ∧
    serve sampleServer (Protocol.Json (JsonProtocol.TrackDna sampleTrack)) =
      ⟨priv_send_all sampleServer dnaA (Protocol.Json (JsonProtocol.PeerConnected ⟨agentA⟩))
        ++ reconciliation_requests dnaA agentA 0 0,
        trackdna_result_state sampleServer sampleTrack, none⟩ ∧
    serve (trackdna_result_state sampleServer sampleTrack)
        (Protocol.Json (JsonProtocol.TrackDna sampleTrack)) =
      ⟨[], trackdna_result_state sampleServer sampleTrack, none⟩ :=
  ⟨by decide, by decide,
    (C1_trackdna_idempotent.2.1 sampleServer sampleTrack 0 (by decide) (by decide)).1,
    C1_trackdna_idempotent.1 (trackdna_result_state sampleServer sampleTrack) sampleTrack
      (by decide)⟩

/-- C2: serving a `TrackDna` for an untracked bucket whose agent has a
registered sink succeeds and unicasts to that agent, after the
`PeerConnected` multicast, exactly the four list requests in order -
`HandleGetPublishingEntryList`, `HandleGetHoldingEntryList`,
`HandleGetPublishingMetaList`, `HandleGetHoldingMetaList` - each carrying
a fresh id `req_{n+1}` ... `req_{n+4}` that the resulting `request_book`
maps to the agent's bucket. -/
theorem C2_reconciliation_handshake (s : InMemoryServer) (msg : TrackDnaData) (sender : SinkId)
    (h1 : cat_dna_agent msg.dna_address msg.agent_id ∉ s.trackdna_book)
    (h2 : alLookup s.senders (cat_dna_agent msg.dna_address msg.agent_id) = some sender) :
    (serve s (Protocol.Json (JsonProtocol.TrackDna msg))).err = none ∧
    (serve s (Protocol.Json (JsonProtocol.TrackDna msg))).outs =
      priv_send_all s msg.dna_address
        (Protocol.Json (JsonProtocol.PeerConnected ⟨msg.agent_id⟩))
      ++ [(sender, Protocol.Json (JsonProtocol.HandleGetPublishingEntryList
            ⟨reqId (s.request_count + 1), msg.dna_address⟩)),
          (sender, Protocol.Json (JsonProtocol.HandleGetHoldingEntryList
            ⟨reqId (s.request_count + 2), msg.dna_address⟩)),
          (sender, Protocol.Json (JsonProtocol.HandleGetPublishingMetaList
            ⟨reqId (s.request_count + 3), msg.dna_address⟩)),
          (sender, Protocol.Json (JsonProtocol.HandleGetHoldingMetaList
            ⟨reqId (s.request_count + 4), msg.dna_address⟩))] ∧
    alLookup (serve s (Protocol.Json (JsonProtocol.TrackDna msg))).state.request_book
        (reqId (s.request_count + 1)) =
      some (cat_dna_agent msg.dna_address msg.agent_id) ∧
    alLookup (serve s (Protocol.Json (JsonProtocol.TrackDna msg))).state.request_book
        (reqId (s.request_count + 2)) =
      some (cat_dna_agent msg.dna_address msg.agent_id) ∧
    alLookup (serve s (Protocol.Json (JsonProtocol.TrackDna msg))).state.request_book
        (reqId (s.request_count + 3)) =
      some (cat_dna_agent msg.dna_address msg.agent_id) ∧
    alLookup (serve s (Protocol.Json (JsonProtocol.TrackDna msg))).state.request_book
        (reqId (s.request_count + 4)) =
      some (cat_dna_agent msg.dna_address msg.agent_id) ∧
    (serve s (Protocol.Json (JsonProtocol.TrackDna msg))).state.request_count =
      s.request_count + 4 := by
  rw [serve_trackdna_untracked s msg sender h1 h2]
  refine ⟨rfl, rfl, ?_, ?_, ?_, ?_, rfl⟩
  · show alLookup (trackdna_result_state s msg).request_book _ = _
    unfold trackdna_result_state request_lists_state
    dsimp only
    rw [alLookup_alInsert_ne _ _ _ _ (reqId_ne (by omega) (by omega) (by omega)),
      alLookup_alInsert_ne _ _ _ _ (reqId_ne (by omega) (by omega) (by omega)),
      alLookup_alInsert_ne _ _ _ _ (reqId_ne (by omega) (by omega) (by omega)),
      alLookup_alInsert_self]
  · show alLookup (trackdna_result_state s msg).request_book _ = _
    unfold trackdna_result_state request_lists_state
    dsimp only
    rw [alLookup_alInsert_ne _ _ _ _ (reqId_ne (by omega) (by omega) (by omega)),
      alLookup_alInsert_ne _ _ _ _ (reqId_ne (by omega) (by omega) (by omega)),
      alLookup_alInsert_self]
  · show alLookup (trackdna_result_state s msg).request_book _ = _
    unfold trackdna_result_state request_lists_state
    dsimp only
    rw [alLookup_alInsert_ne _ _ _ _ (reqId_ne (by omega) (by omega) (by omega)),
      alLookup_alInsert_self]
  · show alLookup (trackdna_result_state s msg).request_book _ = _
    unfold trackdna_result_state request_lists_state
    dsimp only
    rw [alLookup_alInsert_self]

/-- Witness for C2 at the sample server. -/
theorem C2_reconciliation_handshake_witness :
    (cat_dna_agent dnaA agentA ∉ sampleServer.trackdna_book) ∧
    (alLookup sampleServer.senders (cat_dna_agent dnaA agentA) = some 0) ∧
    (serve sampleServer (Protocol.Json (JsonProtocol.TrackDna sampleTrack))).err = none ∧
    alLookup (serve sampleServer
        (Protocol.Json (JsonProtocol.TrackDna sampleTrack))).state.request_book (reqId 1) =
      some (cat_dna_agent dnaA agentA) ∧
    (serve sampleServer
        (Protocol.Json (JsonProtocol.TrackDna sampleTrack))).state.request_count = 4 :=
  ⟨by decide, by decide,
    (C2_reconciliation_handshake sampleServer sampleTrack 0 (by decide) (by decide)).1,
    (C2_reconciliation_handshake sampleServer sampleTrack 0 (by decide) (by decide)).2.2.1,
    (C2_reconciliation_handshake sampleServer sampleTrack 0 (by decide) (by decide)).2.2.2.2.2.2⟩

/-- C3 counterexample: after registering the same sink twice for
`(dnaA, a1)`, that sink is registered in `senders_by_dna[dnaA]` but a
served `PublishEntry` delivers `HandleStoreEntry` to it twice, not
exactly once. -/
theorem C3_publish_fanout_counterexample :
    (0 : SinkId) ∈ (alLookup dupServer.senders_by_dna dnaA).getD [] ∧
    (serve dupServer (Protocol.Json (JsonProtocol.PublishEntry sampleEntry))).outs.count
        (0, Protocol.Json (JsonProtocol.HandleStoreEntry sampleEntry)) = 2 := by
  exact ⟨by decide, by decide⟩

/-- C3 (amended): serving `PublishEntry e` always succeeds, appends
`e.entry_address` to `published_entry_book[bucket(e.dna_address,
e.provider_agent_id)]`, and delivers one `HandleStoreEntry e` per
occurrence of a sink in `senders_by_dna[e.dna_address]` - so exactly one
per sink when each sink occurs once, but two for a sink registered
twice. -/
theorem C3_publish_fanout (s : InMemoryServer) (msg : EntryData) :
    serve s (Protocol.Json (JsonProtocol.PublishEntry msg)) =
      ⟨((alLookup s.senders_by_dna msg.dna_address).getD []).map
          (fun sender => (sender, Protocol.Json (JsonProtocol.HandleStoreEntry msg))),
        { s with published_entry_book :=
            (bookkeep_address s.published_entry_book msg.dna_address msg.provider_agent_id
              msg.entry_address) },
        none⟩
    ∧ (∀ sender : SinkId,
      (serve s (Protocol.Json (JsonProtocol.PublishEntry msg))).outs.count
          (sender, Protocol.Json (JsonProtocol.HandleStoreEntry msg)) =
        ((alLookup s.senders_by_dna msg.dna_address).getD []).count sender)
    ∧ (alLookup
          (serve s (Protocol.Json (JsonProtocol.PublishEntry msg))).state.published_entry_book
          (cat_dna_agent msg.dna_address msg.provider_agent_id)).getD [] =
        (alLookup s.published_entry_book
          (cat_dna_agent msg.dna_address msg.provider_agent_id)).getD []
          ++ [msg.entry_address] := by
  have hmain : serve s (Protocol.Json (JsonProtocol.PublishEntry msg)) =
      ⟨((alLookup s.senders_by_dna msg.dna_address).getD []).map
          (fun sender => (sender, Protocol.Json (JsonProtocol.HandleStoreEntry msg))),
        { s with published_entry_book :=
            (bookkeep_address s.published_entry_book msg.dna_address msg.provider_agent_id
              msg.entry_address) },
        none⟩ := by
    show priv_serve_PublishDhtData s msg = _
    unfold priv_serve_PublishDhtData
    dsimp only
    rw [show priv_send_all
        { s with published_entry_book :=
            (bookkeep_address s.published_entry_book msg.dna_address msg.provider_agent_id
              msg.entry_address) }
        msg.dna_address (Protocol.Json (JsonProtocol.HandleStoreEntry msg)) =
      priv_send_all s msg.dna_address
        (Protocol.Json (JsonProtocol.HandleStoreEntry msg)) from rfl]
    rw [priv_send_all_eq_map]
  refine ⟨hmain, ?_, ?_⟩
  · intro sender
    rw [hmain]
    exact count_map_pair _ sender _
  · rw [hmain]
    show (alLookup (bookkeep_address_with_bucket s.published_entry_book
        (cat_dna_agent msg.dna_address msg.provider_agent_id) msg.entry_address) _).getD [] = _
    rw [bookkeep_getD]

/-- C4: a `FetchEntry` is forwarded as `HandleFetchEntry` to the first
sink registered on its DNA (and nothing else is sent); with no sink on
the DNA, the requester - when it has a channel - receives exactly one
fabricated `FailureResult` carrying the fetch's request id, the
requester's agent id and the fixed error text. -/
theorem C4_fetch_routing :
    (∀ (s : InMemoryServer) (msg : FetchEntryData) (r : SinkId) (rest : List SinkId),
      alLookup s.senders_by_dna msg.dna_address = some (r :: rest) →
      serve s (Protocol.Json (JsonProtocol.FetchEntry msg)) =
        ⟨[(r, Protocol.Json (JsonProtocol.HandleFetchEntry msg))], s, none⟩)
    ∧ (∀ (s : InMemoryServer) (msg : FetchEntryData) (sender : SinkId),
      (alLookup s.senders_by_dna msg.dna_address).getD [] = [] →
      alLookup s.senders (cat_dna_agent msg.dna_address msg.requester_agent_id) = some sender →
      serve s (Protocol.Json (JsonProtocol.FetchEntry msg)) =
        ⟨[(sender, Protocol.Json (JsonProtocol.FailureResult
            ⟨msg.request_id, msg.dna_address, msg.requester_agent_id, couldNotFindNodes⟩))],
          s, none⟩) := by
  constructor
  · intro s msg r rest h
    show priv_serve_FetchDhtData s msg = _
    unfold priv_serve_FetchDhtData
    rw [h]
  · intro s msg sender hempty hsender
    show priv_serve_FetchDhtData s msg = _
    unfold priv_serve_FetchDhtData
    rcases h : alLookup s.senders_by_dna msg.dna_address with _ | arr
    · simp only [priv_send_one, priv_send_one_with_bucket, hsender]
    · rw [h] at hempty
      simp only [Option.getD_some] at hempty
      subst hempty
      simp only [priv_send_one, priv_send_one_with_bucket, hsender]

/-- Witness for C4: forwarding on `sampleServer`, the failure path on a
server with no sinks on `dnaB`. -/
theorem C4_fetch_routing_witness :
    (alLookup sampleServer.senders_by_dna dnaA = some [0]) ∧
    serve sampleServer (Protocol.Json (JsonProtocol.FetchEntry ⟨agentA, requestRx, dnaA, entryY⟩)) =
      ⟨[(0, Protocol.Json (JsonProtocol.HandleFetchEntry ⟨agentA, requestRx, dnaA, entryY⟩))],
        sampleServer, none⟩ ∧
    ((alLookup fetchNoPeersServer.senders_by_dna dnaB).getD [] = []) ∧
    (alLookup fetchNoPeersServer.senders (cat_dna_agent dnaB agentA) = some 3) ∧
    serve fetchNoPeersServer (Protocol.Json (JsonProtocol.FetchEntry sampleFetch)) =
      ⟨[(3, Protocol.Json (JsonProtocol.FailureResult
          ⟨requestRx, dnaB, agentA, couldNotFindNodes⟩))],
        fetchNoPeersServer, none⟩ :=
  ⟨by decide,
    C4_fetch_routing.1 sampleServer ⟨agentA, requestRx, dnaA, entryY⟩ 0 [] (by decide),
    by decide, by decide,
    C4_fetch_routing.2 fetchNoPeersServer sampleFetch 3 (by decide) (by decide)⟩

/-- C5: a `HandleFetchEntryResult` whose request id is pending in
`request_book` consumes the id and behaves exactly like serving a
`PublishEntry` assembled from its dna, provider, entry address and
content; any other `HandleFetchEntryResult` is relayed as a
`FetchEntryResult` to `(dna_address, requester_agent_id)` with no state
change. -/
theorem C5_fetch_result_refinement :
    (∀ (s : InMemoryServer) (msg : FetchEntryResultData) (b : BucketId),
      alLookup s.request_book msg.request_id = some b →
      serve s (Protocol.Json (JsonProtocol.HandleFetchEntryResult msg)) =
        serve { s with request_book := alRemove s.request_book msg.request_id }
          (Protocol.Json (JsonProtocol.PublishEntry
            ⟨msg.dna_address, msg.provider_agent_id, msg.entry_address, msg.entry_content⟩)))
    ∧ (∀ (s : InMemoryServer) (msg : FetchEntryResultData) (sender : SinkId),
      alLookup s.request_book msg.request_id = none →
      alLookup s.senders (cat_dna_agent msg.dna_address msg.requester_agent_id) = some sender →
      serve s (Protocol.Json (JsonProtocol.HandleFetchEntryResult msg)) =
        ⟨[(sender, Protocol.Json (JsonProtocol.FetchEntryResult msg))], s, none⟩) := by
  constructor
  · intro s msg b h
    show priv_serve_HandleFetchDhtDataResult s msg = _
    unfold priv_serve_HandleFetchDhtDataResult priv_drop_request
    dsimp only
    rw [h]
    rfl
  · intro s msg sender h hsender
    show priv_serve_HandleFetchDhtDataResult s msg = _
    unfold priv_serve_HandleFetchDhtDataResult priv_drop_request
    dsimp only
    rw [h]
    rw [alRemove_of_lookup_none _ _ h]
    simp only [Option.isSome_none, Bool.false_eq_true, if_false, priv_send_one,
      priv_send_one_with_bucket, hsender]

/-- Witness for C5: the internal-fetch path on `requestBookServer` and
the relay path on `sampleServer`. -/
theorem C5_fetch_result_refinement_witness :
    (alLookup requestBookServer.request_book (reqId 1) = some (cat_dna_agent dnaA agentA)) ∧
    serve requestBookServer (Protocol.Json (JsonProtocol.HandleFetchEntryResult
        sampleFetchResult)) =
      serve { requestBookServer with request_book :=
          (alRemove requestBookServer.request_book (reqId 1)) }
        (Protocol.Json (JsonProtocol.PublishEntry sampleEntry)) ∧
    (alLookup sampleServer.request_book requestRx = none) ∧
    serve sampleServer (Protocol.Json (JsonProtocol.HandleFetchEntryResult
        sampleFetchResultExternal)) =
      ⟨[(0, Protocol.Json (JsonProtocol.FetchEntryResult sampleFetchResultExternal))],
        sampleServer, none⟩ :=
  ⟨by decide,
    C5_fetch_result_refinement.1 requestBookServer sampleFetchResult
      (cat_dna_agent dnaA agentA) (by decide),
    by decide,
    C5_fetch_result_refinement.2 sampleServer sampleFetchResultExternal 0
      (by decide) (by decide)⟩

/-- C6: a `FailureResult` answering a pending internal request is
swallowed - the id is removed from `request_book`, nothing is emitted and
`serve` returns `Ok`; a `FailureResult` with an unknown id is relayed
verbatim to `(dna_address, to_agent_id)`. -/
theorem C6_failure_result :
    (∀ (s : InMemoryServer) (msg : FailureResultData) (b : BucketId),
      (s.request_book.map Prod.fst).Nodup →
      alLookup s.request_book msg.request_id = some b →
      serve s (Protocol.Json (JsonProtocol.FailureResult msg)) =
        ⟨[], { s with request_book := alRemove s.request_book msg.request_id }, none⟩ ∧
      alLookup (serve s (Protocol.Json (JsonProtocol.FailureResult msg))).state.request_book
        msg.request_id = none)
    ∧ (∀ (s : InMemoryServer) (msg : FailureResultData) (sender : SinkId),
      alLookup s.request_book msg.request_id = none →
      alLookup s.senders (cat_dna_agent msg.dna_address msg.to_agent_id) = some sender →
      serve s (Protocol.Json (JsonProtocol.FailureResult msg)) =
        ⟨[(sender, Protocol.Json (JsonProtocol.FailureResult msg))], s, none⟩) := by
  constructor
  · intro s msg b hnd h
    have hstate : serve s (Protocol.Json (JsonProtocol.FailureResult msg)) =
        ⟨[], { s with request_book := alRemove s.request_book msg.request_id }, none⟩ := by
      show (match (priv_check_request s msg.request_id).2 with
        | some _ => (⟨[], (priv_drop_request (priv_check_request s msg.request_id).1
            msg.request_id).1, none⟩ : ServeResult)
        | none =>
          ⟨(priv_send_one (priv_check_request s msg.request_id).1 msg.dna_address
              msg.to_agent_id (Protocol.Json (JsonProtocol.FailureResult msg))).1,
            (priv_check_request s msg.request_id).1,
            (priv_send_one (priv_check_request s msg.request_id).1 msg.dna_address
              msg.to_agent_id (Protocol.Json (JsonProtocol.FailureResult msg))).2⟩) = _
      unfold priv_check_request priv_drop_request
      rw [h]
      dsimp only
      rw [alRemove_alRemove_self_of_nodup _ _ hnd]
    refine ⟨hstate, ?_⟩
    rw [hstate]
    exact alLookup_alRemove_self_of_nodup _ _ hnd
  · intro s msg sender h hsender
    show (match (priv_check_request s msg.request_id).2 with
      | some _ => (⟨[], (priv_drop_request (priv_check_request s msg.request_id).1
          msg.request_id).1, none⟩ : ServeResult)
      | none =>
        ⟨(priv_send_one (priv_check_request s msg.request_id).1 msg.dna_address
            msg.to_agent_id (Protocol.Json (JsonProtocol.FailureResult msg))).1,
          (priv_check_request s msg.request_id).1,
          (priv_send_one (priv_check_request s msg.request_id).1 msg.dna_address
            msg.to_agent_id (Protocol.Json (JsonProtocol.FailureResult msg))).2⟩) = _
    unfold priv_check_request
    rw [h]
    dsimp only
    simp only [priv_send_one, priv_send_one_with_bucket, hsender]

/-- Witness for C6: the swallowed internal failure on
`requestBookServer` and the relay path on `sampleServer`. -/
theorem C6_failure_result_witness :
    ((requestBookServer.request_book.map Prod.fst).Nodup) ∧
    (alLookup requestBookServer.request_book (reqId 1) = some (cat_dna_agent dnaA agentA)) ∧
    serve requestBookServer (Protocol.Json (JsonProtocol.FailureResult sampleFailureInternal)) =
      ⟨[], { requestBookServer with request_book :=
          (alRemove requestBookServer.request_book (reqId 1)) }, none⟩ ∧
    (alLookup sampleServer.request_book requestRx = none) ∧
    serve sampleServer (Protocol.Json (JsonProtocol.FailureResult sampleFailureExternal)) =
      ⟨[(0, Protocol.Json (JsonProtocol.FailureResult sampleFailureExternal))],
        sampleServer, none⟩ :=
  ⟨by decide, by decide,
    (C6_failure_result.1 requestBookServer sampleFailureInternal (cat_dna_agent dnaA agentA)
      (by decide) (by decide)).1,
    by decide,
    C6_failure_result.2 sampleServer sampleFailureExternal 0 (by decide) (by decide)⟩

/-- C7 counterexample: registering `(dnaA, a1)` twice with the same sink
leaves the `(bucket, sink)` pair in `senders`, but the sink appears twice
- not exactly once - in `senders_by_dna[dnaA]`. -/
theorem C7_sink_once_counterexample :
    alLookup dupServer.senders (cat_dna_agent dnaA agentA) = some 0 ∧
    ((alLookup dupServer.senders_by_dna dnaA).getD []).count 0 = 2 := by
  exact ⟨by decide, by decide⟩

/-- C7 (amended): in every reachable state - registrations restricted to
agent ids without a colon, as bucket ids would otherwise collide - every
`(bucket, sink)` pair in `senders` has its sink present (at least once)
in `senders_by_dna[dna]`; re-registration duplicates the per-DNA entry,
so "exactly once" does not hold. -/
theorem C7_sink_listed (s : InMemoryServer) (hs : Reachable s) (dna_address : Address)
    (agent_id : AgentId) (sender : SinkId)
    (hg : ∀ c ∈ agent_id.data, c ≠ ':')
    (hlk : alLookup s.senders (cat_dna_agent dna_address agent_id) = some sender) :
    sender ∈ (alLookup s.senders_by_dna dna_address).getD [] :=
  reachable_sinksConsistent hs dna_address agent_id sender hg hlk

/-- Witness for C7 on the freshly registered sample server. -/
theorem C7_sink_listed_witness :
    (∀ c ∈ agentA.data, c ≠ ':') ∧
    alLookup sampleServer.senders (cat_dna_agent dnaA agentA) = some 0 ∧
    (0 : SinkId) ∈ (alLookup sampleServer.senders_by_dna dnaA).getD [] :=
  ⟨by decide, by decide,
    C7_sink_listed sampleServer
      (Reachable.step_register dnaA agentA 0 (Reachable.init netName) (by decide))
      dnaA agentA 0 (by decide) (by decide)⟩

/-- C8 counterexample: a holding-list reply that repeats an address is
appended twice - the book records the address twice after reconciliation
completes. -/
theorem C8_holding_nodup_counterexample :
    ((alLookup
        (serve requestBookServer
          (Protocol.Json (JsonProtocol.HandleGetHoldingEntryListResult
            holdingMsgDup))).state.stored_entry_book
        (cat_dna_agent dnaA agentA)).getD []).count entryX = 2 := by
  decide

/-- C8 (amended): after serving a `HandleGetHoldingEntryListResult`,
each address occurs at most once in `stored_entry_book[bucket]` provided
the book had no duplicates and the incoming list has none; after serving
a `HandleGetHoldingMetaListResult` on a bucket whose
`stored_meta_book[bucket]` is still unset (the first-reconciliation
situation, since only this handler writes that book), each meta address
occurs at most once provided the incoming pairs map to pairwise-distinct
meta addresses.  An incoming list that repeats an entry defeats the
snapshot-based dedup check and produces duplicates. -/
theorem C8_holding_nodup :
    (∀ (s : InMemoryServer) (msg : EntryListData) (b : BucketId),
      alLookup s.request_book msg.request_id = some b →
      ((alLookup s.stored_entry_book b).getD []).Nodup →
      msg.entry_address_list.Nodup →
      ((alLookup
          (serve s (Protocol.Json
            (JsonProtocol.HandleGetHoldingEntryListResult msg))).state.stored_entry_book
          b).getD []).Nodup)
    ∧ (∀ (s : InMemoryServer) (msg : MetaListData) (b : BucketId),
      alLookup s.request_book msg.request_id = some b →
      alLookup s.stored_meta_book b = none →
      (msg.meta_list.map (fun pr => meta_to_address pr.1 pr.2)).Nodup →
      ((alLookup
          (serve s (Protocol.Json
            (JsonProtocol.HandleGetHoldingMetaListResult msg))).state.stored_meta_book
          b).getD []).Nodup) := by
  constructor
  · intro s msg b hreq hbook hlist
    show ((alLookup
        (priv_serve_HandleGetHoldingDataListResult s msg).state.stored_entry_book
        b).getD []).Nodup
    unfold priv_serve_HandleGetHoldingDataListResult priv_check_request priv_drop_request
    rw [hreq]
    dsimp only
    exact holdingListLoop_nodup b _ msg.entry_address_list s.stored_entry_book hbook hlist
      (fun x _ hnk hmem => hnk hmem)
  · intro s msg b hreq hbook hlist
    show ((alLookup
        (priv_serve_HandleGetHoldingMetaListResult s msg).state.stored_meta_book
        b).getD []).Nodup
    unfold priv_serve_HandleGetHoldingMetaListResult priv_check_request priv_drop_request
    rw [hreq]
    dsimp only
    refine holdingMetaListLoop_nodup b _ msg.meta_list s.stored_meta_book ?_ hlist ?_
    · rw [hbook]
      exact List.nodup_nil
    · intro pr _ _
      rw [hbook]
      simp

/-- Witness for C8: a duplicate-free holding reply and a
duplicate-free meta reply on the sample server with a pending request. -/
theorem C8_holding_nodup_witness :
    (alLookup requestBookServer.request_book (reqId 1) = some (cat_dna_agent dnaA agentA)) ∧
    ((alLookup requestBookServer.stored_entry_book (cat_dna_agent dnaA agentA)).getD
      []).Nodup ∧
    holdingMsgOk.entry_address_list.Nodup ∧
    ((alLookup
        (serve requestBookServer
          (Protocol.Json (JsonProtocol.HandleGetHoldingEntryListResult
            holdingMsgOk))).state.stored_entry_book
        (cat_dna_agent dnaA agentA)).getD []).Nodup ∧
    (alLookup requestBookServer.stored_meta_book (cat_dna_agent dnaA agentA) = none) ∧
    (holdingMetaMsgOk.meta_list.map (fun pr => meta_to_address pr.1 pr.2)).Nodup ∧
    ((alLookup
        (serve requestBookServer
          (Protocol.Json (JsonProtocol.HandleGetHoldingMetaListResult
            holdingMetaMsgOk))).state.stored_meta_book
        (cat_dna_agent dnaA agentA)).getD []).Nodup :=
  ⟨by decide, by decide, by decide,
    C8_holding_nodup.1 requestBookServer holdingMsgOk (cat_dna_agent dnaA agentA)
      (by decide) (by decide) (by decide),
    by decide, by decide,
    C8_holding_nodup.2 requestBookServer holdingMetaMsgOk (cat_dna_agent dnaA agentA)
      (by decide) (by decide) (by decide)⟩

/-- C9: `clock_out` asserts `client_count > 0`; it decrements the count,
clears `senders` and `senders_by_dna` exactly when the count reaches
zero, and in every case leaves the four address books, `trackdna_book`,
`request_book` and `request_count` (and the name) untouched - the record
updates below change no other field. -/
theorem C9_clock_out :
    (∀ s : InMemoryServer, s.client_count = 0 → clock_out s = none)
    ∧ (∀ s : InMemoryServer, s.client_count = 1 →
      clock_out s = some { s with client_count := 0, senders := [], senders_by_dna := [] })
    ∧ (∀ s : InMemoryServer, 1 < s.client_count →
      clock_out s = some { s with client_count := s.client_count - 1 }) := by
  refine ⟨?_, ?_, ?_⟩
  · intro s h
    unfold clock_out
    rw [if_pos h]
  · intro s h
    unfold clock_out
    rw [if_neg (by omega)]
    dsimp only
    rw [if_pos (by omega)]
    rw [show s.client_count - 1 = 0 from by omega]
  · intro s h
    unfold clock_out
    rw [if_neg (by omega)]
    dsimp only
    rw [if_neg (by omega)]

/-- Witness for C9 at client counts 0, 1 and 2. -/
theorem C9_clock_out_witness :
    clock_out (InMemoryServer.new netName) = none ∧
    clock_out (clock_in sampleServer) =
      some { clock_in sampleServer with client_count := 0, senders := [], senders_by_dna := [] } ∧
    clock_out (clock_in (clock_in sampleServer)) =
      some { clock_in (clock_in sampleServer) with client_count := 1 } :=
  ⟨C9_clock_out.1 (InMemoryServer.new netName) (by decide),
    C9_clock_out.2.1 (clock_in sampleServer) (by decide),
    C9_clock_out.2.2 (clock_in (clock_in sampleServer)) (by decide)⟩

/-- C10: `register` never fails - it returns `Ok(())` from every state
and for every input, despite its `NetResult<()>` return type. -/
theorem C10_register_ok (s : InMemoryServer) (dna_address : Address) (agent_id : AgentId)
    (sender : SinkId) :
    (register s dna_address agent_id sender).2 = Except.ok () :=
  rfl

end MemServer
